import Mathlib

/-!
Verification of the `homeassistant-addons` repository (Bobil scraper,
Bobil web dashboard, Ukenytt PDF bridge, external webhook bridge).

Each Python component is shallowly embedded as executable Lean
definitions that mirror the source control flow; theorems below settle
the specification claims against these definitions.

Conventions used throughout the embedding:
* Python strings are `String`, ints are `Nat`/`Int`, `None` is `Option`.
* `str(x)` applied to an optional value maps `None` to the literal
  string "None", as Python does.
* Database tables are association lists passed as explicit state.
* Network fetches are modelled by explicit oracle functions
  (`Nat → Option response`), so a failed fetch is `none`.
-/

/-- Characters kept by Python `re.sub(r"[^\d]", "", s)`: the ASCII digits. -/
def stripNonDigits (s : String) : String :=
  String.mk (s.data.filter Char.isDigit)

/-- Python `str(x)` for an optional string (`None` prints as "None"). -/
def optStr : Option String → String
  | none => "None"
  | some s => s

/-- Python `str(x)` for an optional integer (`None` prints as "None"). -/
def optNatStr : Option Nat → String
  | none => "None"
  | some n => toString n

/-- Value of a list of decimal digit characters. -/
def digitsToNat (cs : List Char) : Nat :=
  cs.foldl (fun a c => a * 10 + (c.toNat - '0'.toNat)) 0

/-- Python `int(s)` on a string that is known to consist of digits only:
fails exactly when the string is empty. -/
def digitsVal (cs : List Char) : Option Nat :=
  if cs.isEmpty then none else some (digitsToNat cs)

/-- Python `str.lower()` (ASCII case mapping; the inputs here are ASCII). -/
def strLower (s : String) : String :=
  String.mk (s.data.map Char.toLower)

/-- Python `str.strip()`: drop leading and trailing whitespace. -/
def pyStrip (s : String) : String :=
  String.mk (((s.data.dropWhile Char.isWhitespace).reverse.dropWhile
    Char.isWhitespace).reverse)

/-- Python `sep.join(parts)`. -/
def joinSep (sep : String) : List String → String
  | [] => ""
  | [s] => s
  | s :: rest => s ++ sep ++ joinSep sep rest

/-- `int(re.sub(r"[^\d]", "", str(price)))`, with the `ValueError` on an
empty digit string mapped to `none` (the enclosing `except` returns `None`). -/
def normalizePrice (price : String) : Option Nat :=
  digitsVal (price.data.filter Char.isDigit)

/-- Reversed-digit grouping: inserts a space after every three characters of
the reversed digit list (helper for thousand-separator formatting). -/
def revChunk3 : List Char → List Char
  | a :: b :: c :: d :: rest => a :: b :: c :: ' ' :: revChunk3 (d :: rest)
  | l => l

/-- Python `f"{n:,.0f}".replace(",", " ")`: decimal digits of `n` grouped in
threes from the right, separated by spaces. -/
def thousandSep (n : Nat) : String :=
  String.mk ((revChunk3 (toString n).data.reverse).reverse)

/-- `normalize_and_format_price(price, output_format=True)`:
strip non-digits, parse as int, then render as "NNN NNN kr";
`none` when the digit string is empty. -/
def formatPriceStr (price : String) : Option String :=
  (normalizePrice price).map (fun n => thousandSep n ++ " kr")

/-- `format_kilometerstand` (bobil_v2.py): strip non-digits, render as
"NNN NNN km"; the fallback string "Ukjent" when parsing fails. -/
def formatKmV2 (km : String) : String :=
  match normalizePrice km with
  | some n => thousandSep n ++ " km"
  | none => "Ukjent"

/-- `format_kilometerstand` (bobil.py): same formatting, but the fallback
string is "Ikke tilgjengelig". -/
def formatKmV1 (km : String) : String :=
  match normalizePrice km with
  | some n => thousandSep n ++ " km"
  | none => "Ikke tilgjengelig"

namespace BobilV2

/-- One entry of the FINN API `docs` array, restricted to the fields read by
`extract_info_from_json`.  A `none` field models an absent or `null` JSON key. -/
structure Doc where
  id : Option String
  heading : Option String
  canonical_url : Option String
  timestamp : Option Nat
  price_amount : Option Nat
  year : Option String
  mileage : Option String
  deriving Repr, DecidableEq

/-- A FINN API page response that passed `fetch_json`'s checks (HTTP 200,
a dict containing "docs").  `match_count` is
`metadata.result_size.match_count`, with the Python default `0` when the
metadata chain is absent. -/
structure FinnResponse where
  match_count : Nat
  docs : List Doc
  deriving Repr, DecidableEq

/-- The record built per ad by `extract_info_from_json` in bobil_v2.py. -/
structure Ad where
  Finnkode : String
  Annonsenavn : Option String
  Pris : Option Nat
  Modell : Option String
  Kilometerstand : Option String
  Oppdatert : String
  URL : String
  Detaljer : List (String × String)
  deriving Repr, DecidableEq

/-- `datetime.fromtimestamp(t / 1000).strftime(DATE_FORMAT)` is opaque wall
clock formatting; the embedding keeps the timestamp's decimal digits, and
"Ukjent" for an absent timestamp, exactly as the source's `else` branch. -/
def formattedDate : Option Nat → String
  | some t => toString t
  | none => "Ukjent"

/-- Conversion of one doc to an ad; `none` when `not finnkode or not url`
makes the loop `continue`. -/
def docToAd (d : Doc) : Option Ad :=
  match d.id, d.canonical_url with
  | some fk, some url =>
      if fk = "" ∨ url = "" then none
      else some
        { Finnkode := fk
          Annonsenavn := d.heading
          Pris := d.price_amount
          Modell := d.year
          Kilometerstand := d.mileage
          Oppdatert := formattedDate d.timestamp
          URL := url
          Detaljer := [] }
  | _, _ => none

/-- `extract_info_from_json` (bobil_v2.py): empty docs give `[]`; if the
first doc misses one of the expected keys (id, heading, canonical_url) the
whole page is rejected; otherwise each doc with a usable id and url becomes
an ad. -/
def extract_info_from_json (docs : List Doc) : List Ad :=
  match docs with
  | [] => []
  | first :: _ =>
      if first.id.isNone ∨ first.heading.isNone ∨ first.canonical_url.isNone then []
      else docs.filterMap docToAd

/-- Deduplicating accumulation: state is `(all_ads, seen_ids)`; an ad whose
Finnkode is already in `seen_ids` is discarded, otherwise it is appended and
its id recorded — the body of both per-page loops in `fetch_all_pages`. -/
def addAds (st : List Ad × List String) (ads : List Ad) : List Ad × List String :=
  ads.foldl
    (fun st ad =>
      if ad.Finnkode ∈ st.2 then st
      else (st.1 ++ [ad], st.2 ++ [ad.Finnkode]))
    st

/-- Python `range(start, stop, step)` for positive `step`. -/
def rangeStep (start stop step : Nat) : List Nat :=
  if step = 0 then []
  else (List.range ((stop - start + step - 1) / step)).map (fun i => start + i * step)

/-- `total_matches` as computed from the first page: the metadata match
count, with a fallback to the length of the first page's docs when the
count is zero. -/
def totalMatchesOf (r : FinnResponse) : Nat :=
  if r.match_count = 0 then r.docs.length else r.match_count

/-- `page_size` is the length of the first response's `docs`. -/
def pageSizeOf (r : FinnResponse) : Nat := r.docs.length

/-- The body of the offset loop in `fetch_all_pages`: a page that fetched is
dedup-accumulated; a failed fetch only logs a warning and leaves the state
untouched. -/
def pageStep (api : Nat → Option FinnResponse) (st : List Ad × List String)
    (off : Nat) : List Ad × List String :=
  match api off with
  | some data => addAds st (extract_info_from_json data.docs)
  | none => st

/-- `fetch_all_pages` (bobil_v2.py).  `api off` is the outcome of
`fetch_json` at offset `off` (`none` = fetch failure or malformed page).
Mirrors the source: fetch offset 0; derive `total_matches` and `page_size`;
dedup-accumulate the first page; return early when `page_size = 0`; then
loop over `range(page_size, total_matches, page_size)` via `pageStep`. -/
def fetch_all_pages (api : Nat → Option FinnResponse) : List Ad :=
  match api 0 with
  | none => []
  | some initialData =>
      if initialData.match_count = 0 ∧ initialData.docs = [] then []
      else if pageSizeOf initialData = 0 then
        (addAds ([], []) (extract_info_from_json initialData.docs)).1
      else
        ((rangeStep (pageSizeOf initialData) (totalMatchesOf initialData)
            (pageSizeOf initialData)).foldl (pageStep api)
          (addAds ([], []) (extract_info_from_json initialData.docs))).1

/-- The offsets at which `fetch_all_pages` invokes `fetch_json`.  The loop
range is fixed before the loop starts, and the loop body calls `fetch_json`
on every iteration (a failed page only logs a warning), so after a usable
first page the whole range is always requested. -/
def requestedOffsets (api : Nat → Option FinnResponse) : List Nat :=
  match api 0 with
  | none => [0]
  | some initialData =>
      if initialData.match_count = 0 ∧ initialData.docs = [] then [0]
      else if pageSizeOf initialData = 0 then [0]
      else 0 :: rangeStep (pageSizeOf initialData) (totalMatchesOf initialData)
        (pageSizeOf initialData)

end BobilV2

/-- First-match association lookup (Python `dict` access / SQL
`SELECT ... WHERE key = %s` + `fetchone`). -/
def assocFind {β : Type} : List (String × β) → String → Option β
  | [], _ => none
  | (a, b) :: rest, k => if a = k then some b else assocFind rest k

/-- Python `d.get(key, default)` on a string-valued dict. -/
def detaljGet (d : List (String × String)) (k dflt : String) : String :=
  (assocFind d k).getD dflt

namespace Bobil

/-- The record built per ad in bobil.py (`extract_info_from_json` there
fills every field with a default, so the fields are plain strings; `Pris`
holds `str()` of the API amount, e.g. "450000" or "Ukjent pris"). -/
structure Ad where
  Finnkode : String
  Annonsenavn : String
  Modell : String
  Kilometerstand : String
  Oppdatert : String
  URL : String
  Pris : String
  Detaljer : List (String × String)
  deriving Repr, DecidableEq

/-- A row of the `bobil` table as written by `update_bobil_table`
(bobil.py); `Pris` is the NULL-able formatted price column. -/
structure BobilRow where
  Finnkode : String
  Annonsenavn : String
  Modell : String
  Kilometerstand : String
  Beskrivelse : String
  Nyttelast : String
  Typebobil : String
  Oppdatert : String
  URL : String
  Pris : Option String
  deriving Repr, DecidableEq

/-- An append-only row of the `prisendringer` table (the `Tidspunkt`
column is filled by SQL `NOW()` and not modelled). -/
structure PrisRow where
  Finnkode : String
  Pris : String
  deriving Repr, DecidableEq

/-- The two tables of the scraper database. -/
structure DB where
  bobil : List BobilRow
  prisendringer : List PrisRow
  deriving Repr, DecidableEq

/-- `log_price_change` (bobil.py): INSERT INTO prisendringer. -/
def log_price_change (fk pris : String) (db : DB) : DB :=
  { db with prisendringer := db.prisendringer ++ [⟨fk, pris⟩] }

/-- The row `update_bobil_table` builds from an ad. -/
def rowOf (ad : Ad) : BobilRow :=
  { Finnkode := ad.Finnkode
    Annonsenavn := ad.Annonsenavn
    Modell := ad.Modell
    Kilometerstand := formatKmV1 ad.Kilometerstand
    Beskrivelse := detaljGet ad.Detaljer "Beskrivelse" "Ikke tilgjengelig"
    Nyttelast := detaljGet ad.Detaljer "Nyttelast" "Ikke tilgjengelig"
    Typebobil := detaljGet ad.Detaljer "Type bobil" "Ikke tilgjengelig"
    Oppdatert := ad.Oppdatert
    URL := ad.URL
    Pris := formatPriceStr ad.Pris }

/-- `INSERT ... ON DUPLICATE KEY UPDATE` keyed on Finnkode: replace the
existing row or append a new one. -/
def upsert (rows : List BobilRow) (row : BobilRow) : List BobilRow :=
  if rows.any (fun r => r.Finnkode = row.Finnkode) then
    rows.map (fun r => if r.Finnkode = row.Finnkode then row else r)
  else rows ++ [row]

/-- `update_bobil_table` (bobil.py). -/
def update_bobil_table (ad : Ad) (db : DB) : DB :=
  { db with bobil := upsert db.bobil (rowOf ad) }

/-- One iteration of the loop in `compare_prices_and_save` (bobil.py):
skip ads whose new or stored price does not normalize; for a known id with
a genuinely different normalized price, append one price-change row and
upsert the listing; for an unknown id, just upsert. `existing` is the
`{Finnkode: Pris}` dict loaded in `main` (values are the NULL-able stored
prices). -/
def compareStep (existing : List (String × Option String)) (db : DB) (ad : Ad) : DB :=
  match normalizePrice ad.Pris with
  | none => db
  | some ny =>
      match assocFind existing ad.Finnkode with
      | some gammelVal =>
          match normalizePrice (optStr gammelVal) with
          | none => db
          | some gammel =>
              if gammel ≠ ny then
                update_bobil_table ad
                  (log_price_change ad.Finnkode (thousandSep ny ++ " kr") db)
              else db
      | none => update_bobil_table ad db

/-- `compare_prices_and_save` (bobil.py). -/
def compare_prices_and_save (new_ads : List Ad)
    (existing : List (String × Option String)) (db : DB) : DB :=
  new_ads.foldl (compareStep existing) db

end Bobil

namespace BobilV2

/-- The scraper database as seen by bobil_v2.py: each `bobil` row keyed by
Finnkode carries the ten SELECTed columns in query order
[Annonsenavn, Modell, Kilometerstand, Girkasse, Beskrivelse, Nyttelast,
Typebobil, Oppdatert, URL, Pris], each held as its `str()` (a NULL read
back prints as "None", which is also how the comparison sees it).
`update_database` contains no statement touching `prisendringer`. -/
structure V2DB where
  bobil : List (String × List String)
  prisendringer : List (String × String)
  deriving Repr, DecidableEq

/-- The new/changed/unchanged counters logged by `update_database`. -/
structure Counts where
  nye : Nat
  endrede : Nat
  uendrede : Nat
  deriving Repr, DecidableEq

/-- `nye_verdier` (bobil_v2.py): the ten values compared against the
stored row and also written by the upsert, in SELECT order; the price slot
holds the normalized integer. -/
def nyeVerdier (ad : Ad) (nyPris : Nat) : List String :=
  [optStr ad.Annonsenavn,
   optStr ad.Modell,
   formatKmV2 (optStr ad.Kilometerstand),
   detaljGet ad.Detaljer "Girkasse" "Ikke oppgitt",
   detaljGet ad.Detaljer "Beskrivelse" "Ikke tilgjengelig",
   detaljGet ad.Detaljer "Nyttelast" "Ikke oppgitt",
   detaljGet ad.Detaljer "Type bobil" "Ikke oppgitt",
   ad.Oppdatert,
   ad.URL,
   toString nyPris]

/-- The change detection of `update_database`: fields are compared as
strings, except index 9 ("Pris"), where the stored value is re-normalized
to an integer and compared with the new integer price. -/
def anyChange (old nye : List String) (nyPris : Nat) : Bool :=
  (old.zip nye).enum.any (fun p =>
    if p.1 = 9 then decide (normalizePrice p.2.1 ≠ some nyPris)
    else decide (p.2.1 ≠ p.2.2))

/-- `INSERT ... ON DUPLICATE KEY UPDATE` on the v2 `bobil` table. -/
def upsertV2 (rows : List (String × List String)) (fk : String)
    (vals : List String) : List (String × List String) :=
  if rows.any (fun r => r.1 = fk) then
    rows.map (fun r => if r.1 = fk then (fk, vals) else r)
  else rows ++ [(fk, vals)]

/-- One iteration of the ad loop in `update_database` (bobil_v2.py):
an unparseable price skips the record; otherwise the stored row is
fetched and classified as new/changed/unchanged (the SELECT runs before
the write), and unless `dry_run` the upsert is executed. -/
def v2UpdateStep (dry_run : Bool) (st : V2DB × Counts) (ad : Ad) : V2DB × Counts :=
  match normalizePrice (optNatStr ad.Pris) with
  | none => st
  | some ny =>
      ((if dry_run then st.1
        else { st.1 with bobil := upsertV2 st.1.bobil ad.Finnkode (nyeVerdier ad ny) }),
       match assocFind st.1.bobil ad.Finnkode with
       | some old =>
           if anyChange old (nyeVerdier ad ny) ny then
             { st.2 with endrede := st.2.endrede + 1 }
           else
             { st.2 with uendrede := st.2.uendrede + 1 }
       | none => { st.2 with nye := st.2.nye + 1 })

/-- `update_database` (bobil_v2.py): fold the ad loop over an initially
zeroed set of counters, returning the final database and the logged
summary counters. -/
def update_database (ads : List Ad) (dry_run : Bool) (db : V2DB) : V2DB × Counts :=
  ads.foldl (v2UpdateStep dry_run) (db, ⟨0, 0, 0⟩)

end BobilV2

namespace BobilV2

/-- A concrete doc with all expected keys, for the pagination examples. -/
def exDoc (i : String) : Doc :=
  { id := some i, heading := some ("t" ++ i), canonical_url := some ("u" ++ i)
    timestamp := none, price_amount := some 1000, year := none, mileage := none }

/-- A concrete API: first page has 2 of 6 matches; offset 2 returns a page
with no further data; offset 4 returns one more item. -/
def c6api : Nat → Option FinnResponse := fun off =>
  if off = 0 then some ⟨6, [exDoc "a", exDoc "b"]⟩
  else if off = 2 then some ⟨6, []⟩
  else if off = 4 then some ⟨6, [exDoc "x"]⟩
  else none

end BobilV2

namespace BobilV2

/-- Total of the three summary counters logged by `update_database`. -/
def sumCounts (c : Counts) : Nat := c.nye + c.endrede + c.uendrede

/-- A stored v2 row for Finnkode "1" whose price column still holds the old
formatted string "450 000 kr" (ten fields in SELECT order). -/
def c2StoredFields : List String :=
  ["Tittel A", "2020", "10 000 km", "Automat", "Besk", "500 kg", "Integrert",
   "1. jan. 2025 10:00", "u1", "450 000 kr"]

/-- The v2 database before the run: one listing, no price-change rows. -/
def c2Db : V2DB := { bobil := [("1", c2StoredFields)], prisendringer := [] }

/-- A scraped record for the same listing with a genuinely different price
(500000 instead of 450000) and all other fields unchanged. -/
def c2AdNewPrice : Ad :=
  { Finnkode := "1", Annonsenavn := some "Tittel A", Pris := some 500000
    Modell := some "2020", Kilometerstand := some "10000"
    Oppdatert := "1. jan. 2025 10:00", URL := "u1"
    Detaljer := [("Girkasse", "Automat"), ("Beskrivelse", "Besk"),
      ("Nyttelast", "500 kg"), ("Type bobil", "Integrert")] }

/-- A scraped record whose price normalizes to the stored 450000 (differs
only by formatting) but whose title changed. -/
def c2AdSamePrice : Ad :=
  { Finnkode := "1", Annonsenavn := some "Tittel B", Pris := some 450000
    Modell := some "2020", Kilometerstand := some "10000"
    Oppdatert := "1. jan. 2025 10:00", URL := "u1"
    Detaljer := [("Girkasse", "Automat"), ("Beskrivelse", "Besk"),
      ("Nyttelast", "500 kg"), ("Type bobil", "Integrert")] }

/-- A v2 record whose price is absent, so normalization fails. -/
def c8Ad : Ad :=
  { Finnkode := "9", Annonsenavn := some "Uten pris", Pris := none
    Modell := none, Kilometerstand := none
    Oppdatert := "Ukjent", URL := "u9", Detaljer := [] }

end BobilV2

namespace Bobil

/-- A bobil.py record whose price string holds no digits. -/
def c8AdV1 : Ad :=
  { Finnkode := "9", Annonsenavn := "Uten pris", Modell := "2020"
    Kilometerstand := "10000", Oppdatert := "Ukjent", URL := "u9"
    Pris := "Ukjent pris", Detaljer := [] }

/-- A bobil.py record whose price "450000" matches a stored
"450 000 kr" after normalization. -/
def c2AdB : Ad :=
  { Finnkode := "1", Annonsenavn := "T", Modell := "2020"
    Kilometerstand := "10000", Oppdatert := "x", URL := "u"
    Pris := "450000", Detaljer := [] }

end Bobil

namespace Webhook

/-- One outbound Home Assistant state update (`POST /api/states/<entity>`).
The state is the JSON value forwarded untouched, hence a type parameter. -/
structure Update (α : Type) where
  entity_id : String
  state : α
  friendly_name : String
  deriving Repr, DecidableEq

/-- Python `str.capitalize()`: first character upper-cased, the rest
lower-cased (ASCII). -/
def pyCapitalize (s : String) : String :=
  match s.data with
  | [] => ""
  | c :: rest => String.mk (c.toUpper :: rest.map Char.toLower)

/-- `key.replace("_", " ").capitalize()` from run.py. -/
def friendlyOf (k : String) : String :=
  pyCapitalize (String.mk (k.data.map (fun c => if c = '_' then ' ' else c)))

/-- The `/webhook` handler (run.py).  `data` is `request.get_json()`:
`none` for a missing/unparseable body, `some kvs` for a parsed flat
object (`some []` is the empty object, which is falsy).  Returns the HTTP
status and the outbound updates issued, one per key in order. -/
def webhook {α : Type} (data : Option (List (String × α))) : Nat × List (Update α) :=
  match data with
  | none => (400, [])
  | some [] => (400, [])
  | some kvs =>
      (200, kvs.map (fun p =>
        { entity_id := "sensor." ++ p.1 ++ "_ekstern"
          state := p.2
          friendly_name := friendlyOf p.1 }))

end Webhook

/-- Python `needle in hay` on strings: substring containment. -/
def strContains (hay needle : String) : Bool :=
  hay.data.tails.any (fun t => needle.data.isPrefixOf t)

namespace Ukenytt

/-- The five fixed weekday labels (module constant `WEEKDAYS`). -/
def WEEKDAYS : List String := ["Mandag", "Tirsdag", "Onsdag", "Torsdag", "Fredag"]

/-- Normalize one Python slice bound against a list of length `len`:
negative indices count from the end, and all indices clamp to `[0, len]`. -/
def pyBound (len : Nat) (i : Int) : Nat :=
  if i < 0 then ((len : Int) + i).toNat else min i.toNat len

/-- Python `l[a:b]` — also pandas positional `.iloc[a:b]` slicing, which
follows the same semantics. -/
def pySlice {α : Type} (l : List α) (a b : Int) : List α :=
  (l.take (pyBound l.length b)).drop (pyBound l.length a)

/-- Cell of a table row at column `c`.  Tables produced by
`tabula.read_pdf(...).fillna("")` are rectangular with string cells; a
missing column is read as the blank cell. -/
def cell (row : List String) (c : Nat) : String := row.getD c ""

/-- `df[df.iloc[:, 0] == day].index.min()`: the least row index whose
first-column cell equals the weekday label, `NaN` (here `none`) if the
label is absent. -/
def weekdayIdx (df : List (List String)) (day : String) : Option Nat :=
  df.findIdx? (fun row => cell row 0 == day)

/-- The body of the weekday loop in `parse_pdf` for the `i`-th weekday
found at row `ix`: slice rows `ix - 1 .. end` of the content column
(index 2), where `end` is the immediately following weekday's row minus 2
when that weekday is present, else the last row; then drop blank cells
(`item and str(item).strip()`). -/
def daySlice (df : List (List String)) (i : Nat) (ix : Nat) : List String :=
  let nextIdx : Option Nat :=
    match WEEKDAYS.get? (i + 1) with
    | some nd => weekdayIdx df nd
    | none => none
  let e : Int :=
    match nextIdx with
    | some n => (n : Int) - 2
    | none => (df.length : Int) - 1
  ((pySlice df ((ix : Int) - 1) (e + 1)).map (fun row => cell row 2)).filter
    (fun s => !(s == "") && !(pyStrip s == ""))

/-- The weekday segmentation of `parse_pdf` (ukenytt.py): each weekday
label present in column 0 whose filtered slice is nonempty contributes an
entry; `none` models the `ValueError` raised on an empty table. -/
def parse_pdf (df : List (List String)) : Option (List (String × List String)) :=
  if df = [] then none
  else some (WEEKDAYS.enum.filterMap (fun p =>
    match weekdayIdx df p.2 with
    | none => none
    | some ix =>
        let todo := daySlice df p.1 ix
        if todo = [] then none else some (p.2, todo)))

/-- Greedy `\d{1,2}` at the head of the text: two digits if available,
else one, else fail; returns the captured group. -/
def matchDigits12 : List Char → Option String
  | c1 :: c2 :: _ =>
      if c1.isDigit then
        some (if c2.isDigit then String.mk [c1, c2] else String.mk [c1])
      else none
  | [c1] => if c1.isDigit then some (String.mk [c1]) else none
  | [] => none

/-- Attempt the pattern `[Uu]ke\s*(\d{1,2})` (or `uke\s*(\d{1,2})` when
`allowUpper` is false) anchored at the current position. -/
def tryUkeAt (allowUpper : Bool) : List Char → Option String
  | u :: 'k' :: 'e' :: rest =>
      if u = 'u' ∨ (allowUpper ∧ u = 'U') then
        matchDigits12 (rest.dropWhile Char.isWhitespace)
      else none
  | _ => none

/-- `re.search` for the week pattern: first position at which it matches. -/
def ukeSearch (allowUpper : Bool) : List Char → Option String
  | [] => none
  | c :: rest =>
      match tryUkeAt allowUpper (c :: rest) with
      | some d => some d
      | none => ukeSearch allowUpper rest

/-- `pathlib.Path(name).stem` for a file name: the name without its last
suffix; a suffix exists when the last '.' is neither leading nor trailing. -/
def pathStem (name : String) : String :=
  let cs := name.data
  let dotIdxs := (List.range cs.length).filter (fun i => cs.getD i ' ' = '.')
  match dotIdxs.getLast? with
  | some i => if 0 < i ∧ i < cs.length - 1 then String.mk (cs.take i) else name
  | none => name

/-- The filename digits fallback: `"".join(filter(str.isdigit, filename))`
then `digits.lstrip('0') or '0'`; `none` when the name has no digits. -/
def digitsFallback (filename : String) : Option String :=
  let ds := filename.data.filter Char.isDigit
  if ds.isEmpty then none
  else
    let w := ds.dropWhile (fun c => c = '0')
    some (if w.isEmpty then "0" else String.mk w)

/-- `extract_week_number` (ukenytt.py).  `name` is the supplied file name
(`file_path.name`); `pdf_tables` are the raw tables represented by their
`to_string()` text; `pdf_text` is the extracted free text ("" models the
`None`/empty falsy cases).  Sources are tried in order: `uke`-pattern in
the lower-cased stem, any digits in the stem, `Uke NN` in the free text,
`Uke NN` across table texts, and finally the sentinel "0" with a logged
warning. -/
def extract_week_number (name : String) (pdf_tables : List String)
    (pdf_text : String) : String :=
  let filename := strLower (pathStem name)
  match ukeSearch false filename.data with
  | some d => d
  | none =>
      match digitsFallback filename with
      | some w => w
      | none =>
          match (if pdf_text ≠ "" then ukeSearch true pdf_text.data else none) with
          | some d => d
          | none =>
              match pdf_tables.findSome? (fun t => ukeSearch true t.data) with
              | some d => d
              | none => "0"

/-- `MAX_PDF_SIZE` (10 MiB). -/
def MAX_PDF_SIZE : Nat := 10 * 1024 * 1024

/-- Add-on configuration relevant to `/upload`. -/
structure UkConfig where
  API_KEY : String
  CHILDREN : List String
  deriving Repr, DecidableEq

/-- An `/upload` request: query/header API key, `child` query parameter,
optional multipart file (filename, bytes), content type, and the raw body
(bytes are modelled as strings). -/
structure UkRequest where
  args_api_key : Option String
  header_api_key : Option String
  child : String
  file : Option (String × String)
  content_type : Option String
  raw_data : String
  deriving Repr, DecidableEq

/-- The on-disk/remote state the add-on maintains per child: stored PDF,
saved original filename, info file, and last pushed sensor payload
(keyed by the configured child name). -/
structure UkState where
  pdfs : List (String × String)
  filenames : List (String × String)
  infos : List (String × String)
  sensors : List (String × String)
  deriving Repr, DecidableEq

/-- Overwrite-or-insert into a string-keyed association list (file
overwrite / sensor update semantics). -/
def assocSet {β : Type} (l : List (String × β)) (k : String) (v : β) :
    List (String × β) :=
  if l.any (fun p => p.1 = k) then l.map (fun p => if p.1 = k then (k, v) else p)
  else l ++ [(k, v)]

/-- `request.args.get("api_key") or request.headers.get("X-API-Key")`:
Python `or` falls through to the header when the query value is absent or
empty. -/
def providedKey (req : UkRequest) : Option String :=
  match req.args_api_key with
  | some k => if k ≠ "" then some k else req.header_api_key
  | none => req.header_api_key

/-- `children_lower.index(child_name.lower())` resolved back to the
configured casing: the first configured child matching case-insensitively. -/
def canonicalChild (children : List String) (c : String) : Option String :=
  children.find? (fun ch => strLower ch == strLower c)

/-- The file writes of the accepted path: store the PDF (overwriting) and,
when an original filename was supplied, store it too. -/
def writeFiles (child : String) (origName : Option String) (data : String)
    (st : UkState) : UkState :=
  match origName with
  | some fn =>
      { st with pdfs := assocSet st.pdfs child data
                filenames := assocSet st.filenames child fn }
  | none => { st with pdfs := assocSet st.pdfs child data }

/-- The write half of `upload_pdf`, entered only once every validation has
passed: store the PDF (overwriting), store the original filename when one
was supplied, then run `process_pdf_for_child`.  `proc` abstracts that
processing (tabula/pdfplumber parsing and the Home Assistant POST write
its results into the state) and reports success; failure maps to 500. -/
def uploadSave (proc : String → UkState → UkState × Bool) (child : String)
    (origName : Option String) (data : String) (st : UkState) : Nat × UkState :=
  if MAX_PDF_SIZE < data.length then (400, st)
  else if !("%PDF".data.isPrefixOf data.data) then (400, st)
  else
    ((if (proc child (writeFiles child origName data st)).2 then 200 else 500),
     (proc child (writeFiles child origName data st)).1)

/-- `upload_pdf` (ukenytt.py): API-key check, `child` checks, file/body
resolution, then `uploadSave`.  Every rejection path returns the state
untouched. -/
def upload_pdf (proc : String → UkState → UkState × Bool) (cfg : UkConfig)
    (req : UkRequest) (st : UkState) : Nat × UkState :=
  if cfg.API_KEY ≠ "" ∧ providedKey req ≠ some cfg.API_KEY then (401, st)
  else if pyStrip req.child = "" then (400, st)
  else
    match canonicalChild cfg.CHILDREN (pyStrip req.child) with
    | none => (400, st)
    | some child =>
        match req.file with
        | none =>
            match req.content_type with
            | some ct =>
                if ct ≠ "" ∧ strContains (strLower ct) "pdf" then
                  uploadSave proc child none req.raw_data st
                else (400, st)
            | none => (400, st)
        | some (fname, data) =>
            if fname = "" then (400, st)
            else uploadSave proc child (some fname) data st

/-- A trivially succeeding processing oracle for the upload examples. -/
def c10Proc : String → UkState → UkState × Bool := fun _ s => (s, true)

/-- A configuration with an API key and one configured child. -/
def c10Cfg : UkConfig := ⟨"secret", ["Frida"]⟩

/-- A state in which the child already has stored artifacts. -/
def c10St : UkState :=
  ⟨[("Frida", "%PDF-old")], [("Frida", "old.pdf")], [("Frida", "uke info")],
   [("Frida", "payload")]⟩

/-- Concrete rejected requests: bad API key; blank child; unknown child;
no file with a non-PDF content type; empty multipart filename. -/
def c10ReqBadKey : UkRequest :=
  ⟨some "wrong", none, "Frida", none, some "application/pdf", "%PDFdata"⟩

def c10ReqNoChild : UkRequest :=
  ⟨some "secret", none, "  ", none, some "application/pdf", "%PDFdata"⟩

def c10ReqUnknownChild : UkRequest :=
  ⟨some "secret", none, "Bob", none, some "application/pdf", "%PDFdata"⟩

def c10ReqNoFile : UkRequest :=
  ⟨some "secret", none, "Frida", none, some "text/html", "%PDFdata"⟩

def c10ReqEmptyName : UkRequest :=
  ⟨some "secret", none, "Frida", some ("", "%PDFdata"), none, ""⟩

/-- A page-1 table missing Onsdag: column 0 holds the weekday labels,
column 2 the content cells. -/
def c3Df : List (List String) :=
  [["", "", "hdr"],
   ["Mandag", "", "a"],
   ["", "", "b"],
   ["Tirsdag", "", "c"],
   ["", "", "d"],
   ["Torsdag", "", "e"],
   ["", "", "f"],
   ["Fredag", "", "g"],
   ["", "", "h"]]

/-- A page-1 table with all five weekdays present. -/
def c3DfFull : List (List String) :=
  [["", "", "h0"],
   ["Mandag", "", "m1"],
   ["", "", "m2"],
   ["Tirsdag", "", "t1"],
   ["", "", "t2"],
   ["Onsdag", "", "o1"],
   ["", "", "o2"],
   ["Torsdag", "", "r1"],
   ["", "", "r2"],
   ["Fredag", "", "f1"],
   ["", "", "f2"]]

end Ukenytt

namespace BobilWeb

/-- `NO_MONTHS` (bobil_web.py), in insertion order. -/
def NO_MONTHS : List (String × Nat) :=
  [("jan", 1), ("feb", 2), ("mar", 3), ("apr", 4), ("mai", 5), ("jun", 6),
   ("jul", 7), ("aug", 8), ("sep", 9), ("okt", 10), ("nov", 11), ("des", 12)]

/-- Python regex `\w` (ASCII range as used here). -/
def isWordChar (c : Char) : Bool := c.isAlphanum || c = '_'

/-- A `\b` word boundary holds before the current position given the
previous character (start of string, or a non-word character). -/
def boundaryOk : Option Char → Bool
  | none => true
  | some p => !(isWordChar p)

/-- `re.sub(rf"\b{mon}\.?\b", num, s)` for a three-letter month
abbreviation `m1 m2 m3`: at a word boundary, the greedy dotted form
`mon.` matches only when a word character follows the dot (the boundary
then sits between '.' and that character); otherwise the bare form `mon`
matches when followed by end-of-string or a non-word character.  The scan
resumes after each replacement, as `re.sub` does. -/
def headIsWord : List Char → Bool
  | d :: _ => isWordChar d
  | [] => false

def subMonthAux (m1 m2 m3 : Char) (num : List Char) :
    Nat → Option Char → List Char → List Char
  | 0, _, l => l
  | _ + 1, _, [] => []
  | _ + 1, _, [c] => [c]
  | _ + 1, _, [c, c2] => [c, c2]
  | fuel + 1, prev, c :: c2 :: c3 :: rest3 =>
      if boundaryOk prev ∧ c = m1 ∧ c2 = m2 ∧ c3 = m3 then
        match rest3 with
        | [] => num
        | x :: t =>
            if x = '.' ∧ headIsWord t then
              num ++ subMonthAux m1 m2 m3 num fuel (some '.') t
            else if !(isWordChar x) then
              num ++ subMonthAux m1 m2 m3 num fuel (some m3) (x :: t)
            else c :: subMonthAux m1 m2 m3 num fuel (some c) (c2 :: c3 :: rest3)
      else c :: subMonthAux m1 m2 m3 num fuel (some c) (c2 :: c3 :: rest3)

/-- Month substitution on a string (all months used here have three
letters).  Every recursive step of `subMonthAux` consumes at least one
character, so a fuel of the string's length makes the fuel-out branch
unreachable. -/
def subMonth (mon num s : String) : String :=
  match mon.data with
  | [a, b, c] => String.mk (subMonthAux a b c num.data s.data.length none s.data)
  | _ => s

/-- Python `f"{num:02d}"`. -/
def twoDigit (n : Nat) : String :=
  if n < 10 then "0" ++ toString n else toString n

/-- The month loop in `parse_norwegian_date`: the first month whose
abbreviation occurs as a substring is substituted (then `break`). -/
def applyMonth (s : String) : String :=
  match NO_MONTHS.find? (fun p => strContains s p.1) with
  | some p => subMonth p.1 (twoDigit p.2) s
  | none => s

/-- Exactly `k` digits at the head of the text, with their value. -/
def grabDigits (k : Nat) (cs : List Char) : Option (Nat × List Char) :=
  let ds := cs.take k
  if ds.length = k ∧ ds.all Char.isDigit then
    some (ds.foldl (fun a c => a * 10 + (c.toNat - '0'.toNat)) 0, cs.drop k)
  else none

/-- `\s+`: at least one whitespace character, consumed greedily. -/
def skipWs1 (cs : List Char) : Option (List Char) :=
  match cs with
  | c :: rest =>
      if c.isWhitespace then some (rest.dropWhile Char.isWhitespace) else none
  | [] => none

/-- The tail of the date pattern after the captured day and its dot:
`\s*(\d{2})\.?\s+(\d{4})\s+(\d{2}):(\d{2})` (trailing text allowed). -/
def matchDateTail (cs : List Char) : Option (Nat × Nat × Nat × Nat) :=
  match grabDigits 2 (cs.dropWhile Char.isWhitespace) with
  | none => none
  | some (mo, cs3) =>
      let step : Option (List Char) :=
        match cs3 with
        | '.' :: cs4 => skipWs1 cs4
        | _ => skipWs1 cs3
      match step with
      | none => none
      | some cs5 =>
          match grabDigits 4 cs5 with
          | none => none
          | some (y, cs6) =>
              match skipWs1 cs6 with
              | none => none
              | some cs7 =>
                  match grabDigits 2 cs7 with
                  | none => none
                  | some (h, cs8) =>
                      match cs8 with
                      | ':' :: cs9 =>
                          match grabDigits 2 cs9 with
                          | none => none
                          | some (mi, _) => some (mo, y, h, mi)
                      | _ => none

/-- `re.match(r"(\d{1,2})\.\s*(\d{2})\.?\s+(\d{4})\s+(\d{2}):(\d{2})", s)`:
the greedy two-digit day is tried first, backtracking to one digit. -/
def matchNorDate (cs : List Char) : Option (Nat × Nat × Nat × Nat × Nat) :=
  let try2 : Option (Nat × Nat × Nat × Nat × Nat) :=
    match grabDigits 2 cs with
    | some (d, '.' :: rest) => (matchDateTail rest).map (fun t => (d, t))
    | _ => none
  match try2 with
  | some r => some r
  | none =>
      match grabDigits 1 cs with
      | some (d, '.' :: rest) => (matchDateTail rest).map (fun t => (d, t))
      | _ => none

/-- A wall-clock instant at minute resolution (`datetime.now()` is
modelled at the same resolution). -/
structure Date where
  year : Nat
  month : Nat
  day : Nat
  hour : Nat
  minute : Nat
  deriving Repr, DecidableEq

/-- Gregorian month lengths. -/
def daysInMonth (y m : Nat) : Nat :=
  if m = 2 then (if (y % 4 = 0 ∧ y % 100 ≠ 0) ∨ y % 400 = 0 then 29 else 28)
  else if m = 4 ∨ m = 6 ∨ m = 9 ∨ m = 11 then 30 else 31

/-- The validity check `datetime(...)` performs (raising `ValueError`,
which the enclosing `except` turns into `None`). -/
def validDate (y mo d h mi : Nat) : Bool :=
  decide (1 ≤ y ∧ y ≤ 9999 ∧ 1 ≤ mo ∧ mo ≤ 12 ∧ 1 ≤ d ∧ d ≤ daysInMonth y mo
    ∧ h ≤ 23 ∧ mi ≤ 59)

/-- `parse_norwegian_date` (bobil_web.py): reject empty/"Ukjent", strip
and lower-case, substitute the first contained month abbreviation, then
match the anchored date pattern and build the datetime. -/
def parse_norwegian_date (date_str : String) : Option Date :=
  if date_str = "" ∨ date_str = "Ukjent" then none
  else
    match matchNorDate (applyMonth (strLower (pyStrip date_str))).data with
    | none => none
    | some (d, mo, y, h, mi) =>
        if validDate y mo d h mi then some ⟨y, mo, d, h, mi⟩ else none

/-- Days from civil date to the epoch day number (proleptic Gregorian,
Howard Hinnant's algorithm), used to realize `datetime` subtraction. -/
def daysFromCivil (y m d : Nat) : Int :=
  let y2 : Int := if m ≤ 2 then (y : Int) - 1 else (y : Int)
  let era : Int := Int.fdiv y2 400
  let yoe : Int := y2 - era * 400
  let mp : Int := Int.emod ((m : Int) + 9) 12
  let doy : Int := Int.fdiv (153 * mp + 2) 5 + (d : Int) - 1
  let doe : Int := yoe * 365 + Int.fdiv yoe 4 - Int.fdiv yoe 100 + doy
  era * 146097 + doe - 719468

/-- Minutes since the epoch. -/
def toMinutes (dt : Date) : Int :=
  1440 * daysFromCivil dt.year dt.month dt.day + 60 * (dt.hour : Int) + (dt.minute : Int)

/-- `(now - dato).days`: `timedelta.days` floors. -/
def daysBetween (now dt : Date) : Int :=
  Int.fdiv (toMinutes now - toMinutes dt) 1440

/-- `parse_price` (bobil_web.py) applied to the string/NULL price column:
NULL gives `None`, a string containing "solgt" gives `None`, otherwise
the stripped digits (`None` again when there are none). -/
def parse_price : Option String → Option Nat
  | none => none
  | some s =>
      if strContains (strLower s) "solgt" then none
      else normalizePrice s

/-- `format_price` (bobil_web.py): falsy (None/0) renders as an em dash. -/
def format_price : Option Nat → String
  | none => "—"
  | some n => if n = 0 then "—" else thousandSep n ++ " kr"

/-- A `bobil` row as read by the kjøpsscore query. -/
structure WebRow where
  Finnkode : String
  Annonsenavn : String
  Modell : Option String
  Pris : Option String
  Kilometerstand : Option String
  Oppdatert : String
  Beskrivelse : Option String
  Solgt : Option Nat
  deriving Repr, DecidableEq

/-- A `prisendringer` row as read by the query (`Pris` column is written
non-NULL by the scraper). -/
structure WebPrisRow where
  Finnkode : String
  Pris : String
  deriving Repr, DecidableEq

/-- `NULLIF(CAST(REGEXP_REPLACE(p.Pris, '[^0-9]', '') AS UNSIGNED), 0)`:
MySQL casts an empty digit string to 0, and `NULLIF` nulls out zeros. -/
def sqlPriceAgg (s : String) : Option Nat :=
  let v := (normalizePrice s).getD 0
  if v = 0 then none else some v

/-- The per-listing aggregates of the kjøpsscore LEFT JOIN + GROUP BY:
`COUNT(p.Pris)`, `MIN(...)`, `MAX(...)` over that listing's price-change
rows. -/
structure AggRow where
  base : WebRow
  AntallEndringer : Nat
  LavestePris : Option Nat
  HoyestePris : Option Nat

/-- Computes the SQL aggregates for one listing. -/
def aggregate (pris : List WebPrisRow) (b : WebRow) : AggRow :=
  let mine := pris.filter (fun p => p.Finnkode == b.Finnkode)
  let vals := mine.filterMap (fun p => sqlPriceAgg p.Pris)
  { base := b, AntallEndringer := mine.length
    LavestePris := vals.min?, HoyestePris := vals.max? }

/-- The WHERE clause `(b.Solgt = 0 OR b.Solgt IS NULL)`. -/
def solgtOk (b : WebRow) : Bool :=
  decide (b.Solgt = some 0 ∨ b.Solgt = none)

/-- The keyword list of the kjøpsscore view. -/
def keywords : List String := ["køye", "familie", "vendbare seter", "kapteinstoler"]

/-- One result record of the kjøpsscore view. -/
structure ScoreEntry where
  Finnkode : String
  Annonsenavn : String
  Modell : Option String
  NaaverendePris : String
  LavestePris : String
  HoyestePris : String
  AntallEndringer : Nat
  DagerPaaMarkedet : Int
  KjopsScore : Int
  Soketreff : String
  ErNy : Bool
  deriving Repr, DecidableEq

/-- Python `round()` (banker's rounding, half to even).  The float
arithmetic of the score formula is modelled as exact rationals; the
claims proved below only exercise integral values, where float and
rational arithmetic agree. -/
def roundHalfEven (q : ℚ) : Int :=
  if q - ⌊q⌋ < 1/2 then ⌊q⌋
  else if (1 : ℚ)/2 < q - ⌊q⌋ then ⌊q⌋ + 1
  else if ⌊q⌋ % 2 = 0 then ⌊q⌋ else ⌊q⌋ + 1

/-- The loop body of `get_kjopsscore` for one aggregated row: skip rows
without a parseable (nonzero) price or date, apply the 60-day cutoff,
fall back to the current price for missing (or zero) min/max history,
compute the percentage drop from the peak, the score
`round(prisfall_pct * (dager+1) + endringer*5 + dager)`, and the keyword
annotation. -/
def processRow (now : Date) (pris_table : List WebPrisRow) (b : WebRow) :
    Option ScoreEntry :=
  let r := aggregate pris_table b
  match parse_price b.Pris with
  | none => none
  | some pris0 =>
      if pris0 = 0 then none
      else
        match parse_norwegian_date b.Oppdatert with
        | none => none
        | some dato =>
            if 60 < daysBetween now dato then none
            else
              let dager := daysBetween now dato
              let hoy : Nat :=
                match r.HoyestePris with
                | some h => if h = 0 then pris0 else h
                | none => pris0
              let lav : Nat :=
                match r.LavestePris with
                | some l => if l = 0 then pris0 else l
                | none => pris0
              let prisfall : ℚ :=
                if 0 < hoy ∧ pris0 < hoy then ((hoy : ℚ) - (pris0 : ℚ)) * 100 / (hoy : ℚ)
                else 0
              let score := roundHalfEven
                (prisfall * ((dager : ℚ) + 1) + (r.AntallEndringer : ℚ) * 5 + (dager : ℚ))
              let tekst := strLower (b.Annonsenavn ++ " " ++ optStr b.Beskrivelse)
              let treff := keywords.filter (fun kw => strContains tekst (strLower kw))
              some { Finnkode := b.Finnkode
                     Annonsenavn := b.Annonsenavn
                     Modell := b.Modell
                     NaaverendePris := format_price (some pris0)
                     LavestePris := format_price (some lav)
                     HoyestePris := format_price (some hoy)
                     AntallEndringer := r.AntallEndringer
                     DagerPaaMarkedet := dager
                     KjopsScore := score
                     Soketreff := joinSep ", " treff
                     ErNy := dager ≤ 1 }

/-- Stable insertion into a score-descending list: an entry goes after
every existing entry with a score at least as high. -/
def insertDesc (e : ScoreEntry) : List ScoreEntry → List ScoreEntry
  | [] => [e]
  | x :: xs =>
      if x.KjopsScore < e.KjopsScore then e :: x :: xs
      else x :: insertDesc e xs

/-- Stable sort by score descending, realizing
`results.sort(key=lambda x: x["KjopsScore"], reverse=True)`. -/
def sortByScoreDesc (l : List ScoreEntry) : List ScoreEntry :=
  l.foldr insertDesc []

/-- `get_kjopsscore` (bobil_web.py): filter sold listings in SQL, process
rows, sort by score descending (stable), truncate to 100. -/
def get_kjopsscore (now : Date) (bobil : List WebRow)
    (pris : List WebPrisRow) : List ScoreEntry :=
  (sortByScoreDesc ((bobil.filter solgtOk).filterMap (processRow now pris))).take 100

/-- Concrete instants and a concrete listing row for the examples. -/
def c5Now : Date := ⟨2025, 2, 10, 12, 0⟩

def c5Later : Date := ⟨2025, 6, 1, 0, 0⟩

def c5Dt : Date := ⟨2025, 1, 25, 14, 30⟩

def c5Row : WebRow :=
  { Finnkode := "123", Annonsenavn := "Fin bobil med køye"
    Modell := some "2020", Pris := some "450 000 kr"
    Kilometerstand := some "10 000 km", Oppdatert := "25. jan. 2025 14:30"
    Beskrivelse := some "Romslig", Solgt := none }

end BobilWeb

namespace BobilV2

/-- The dedup invariant tying the two accumulator components: the seen-id
set is exactly the ids of the accumulated ads, without duplicates. -/
def stInv (st : List Ad × List String) : Prop :=
  st.2 = st.1.map Ad.Finnkode ∧ st.2.Nodup

lemma stInv_addAds (ads : List Ad) :
    ∀ st : List Ad × List String, stInv st → stInv (addAds st ads) := by
  induction ads with
  | nil => intro st h; exact h
  | cons a rest ih =>
      intro st h
      have hstep : addAds st (a :: rest)
          = addAds (if a.Finnkode ∈ st.2 then st
              else (st.1 ++ [a], st.2 ++ [a.Finnkode])) rest := rfl
      rw [hstep]
      by_cases hm : a.Finnkode ∈ st.2
      · rw [if_pos hm]; exact ih st h
      · rw [if_neg hm]
        refine ih _ ⟨?_, ?_⟩
        · simp [h.1]
        · simp [List.nodup_append, h.2, hm]

lemma stInv_fold (api : Nat → Option FinnResponse) (offs : List Nat) :
    ∀ st : List Ad × List String, stInv st → stInv (offs.foldl (pageStep api) st) := by
  induction offs with
  | nil => intro st h; exact h
  | cons o rest ih =>
      intro st h
      have hstep : (o :: rest).foldl (pageStep api) st
          = rest.foldl (pageStep api) (pageStep api st o) := rfl
      rw [hstep]
      refine ih _ ?_
      unfold pageStep
      cases api o with
      | none => exact h
      | some data => exact stInv_addAds _ st h

lemma nodup_of_stInv {st : List Ad × List String} (h : stInv st) :
    (st.1.map Ad.Finnkode).Nodup := h.1 ▸ h.2

lemma fetch_all_pages_none (api : Nat → Option FinnResponse) (h : api 0 = none) :
    fetch_all_pages api = [] := by
  unfold fetch_all_pages; rw [h]

lemma fetch_all_pages_some (api : Nat → Option FinnResponse) (r : FinnResponse)
    (h : api 0 = some r) :
    fetch_all_pages api =
      (if r.match_count = 0 ∧ r.docs = [] then []
       else if pageSizeOf r = 0 then
         (addAds ([], []) (extract_info_from_json r.docs)).1
       else
         ((rangeStep (pageSizeOf r) (totalMatchesOf r) (pageSizeOf r)).foldl
            (pageStep api) (addAds ([], []) (extract_info_from_json r.docs))).1) := by
  unfold fetch_all_pages; rw [h]

lemma requestedOffsets_none (api : Nat → Option FinnResponse) (h : api 0 = none) :
    requestedOffsets api = [0] := by
  unfold requestedOffsets; rw [h]

lemma requestedOffsets_some (api : Nat → Option FinnResponse) (r : FinnResponse)
    (h : api 0 = some r) :
    requestedOffsets api =
      (if r.match_count = 0 ∧ r.docs = [] then [0]
       else if pageSizeOf r = 0 then [0]
       else 0 :: rangeStep (pageSizeOf r) (totalMatchesOf r) (pageSizeOf r)) := by
  unfold requestedOffsets; rw [h]

lemma mem_rangeStep {start stop step off : Nat} (hs : step ≠ 0) :
    off ∈ rangeStep start stop step ↔ ∃ i, off = start + i * step ∧ off < stop := by
  unfold rangeStep
  rw [if_neg hs]
  simp only [List.mem_map, List.mem_range]
  constructor
  · rintro ⟨i, hi, rfl⟩
    refine ⟨i, rfl, ?_⟩
    have h2 : i + 1 ≤ (stop - start + step - 1) / step := hi
    have h3 : (i + 1) * step ≤ stop - start + step - 1 :=
      (Nat.le_div_iff_mul_le (Nat.pos_of_ne_zero hs)).mp h2
    have h4 : (i + 1) * step = i * step + step := by ring
    rw [h4] at h3
    omega
  · rintro ⟨i, rfl, hlt⟩
    refine ⟨i, ?_, rfl⟩
    have h3 : i * step + step ≤ stop - start + step - 1 := by omega
    have h4 : (i + 1) * step = i * step + step := by ring
    exact (Nat.le_div_iff_mul_le (Nat.pos_of_ne_zero hs)).mpr (h4 ▸ h3)

end BobilV2

/-- C1: the list returned by `fetch_all_pages` contains each Finnkode at
most once (items whose id was already accumulated are discarded), and the
non-initial page requests are exactly at offsets `page_size`,
`2*page_size`, … strictly below `total_matches`. -/
theorem C1_pagination_dedup_and_offsets (api : Nat → Option BobilV2.FinnResponse) :
    ((BobilV2.fetch_all_pages api).map BobilV2.Ad.Finnkode).Nodup ∧
    (∀ off ∈ BobilV2.requestedOffsets api, off ≠ 0 →
      ∃ r, api 0 = some r ∧ BobilV2.pageSizeOf r ∣ off ∧
        BobilV2.pageSizeOf r ≤ off ∧ off < BobilV2.totalMatchesOf r) ∧
    (∀ r, api 0 = some r → ¬(r.match_count = 0 ∧ r.docs = []) →
      BobilV2.pageSizeOf r ≠ 0 →
      ∀ k, 1 ≤ k → k * BobilV2.pageSizeOf r < BobilV2.totalMatchesOf r →
        k * BobilV2.pageSizeOf r ∈ BobilV2.requestedOffsets api) := by
  refine ⟨?_, ?_, ?_⟩
  · cases h : api 0 with
    | none => rw [BobilV2.fetch_all_pages_none api h]; simp
    | some r =>
        rw [BobilV2.fetch_all_pages_some api r h]
        by_cases hc : r.match_count = 0 ∧ r.docs = []
        · rw [if_pos hc]; simp
        · rw [if_neg hc]
          have h0 : BobilV2.stInv (BobilV2.addAds ([], [])
              (BobilV2.extract_info_from_json r.docs)) :=
            BobilV2.stInv_addAds _ _ ⟨rfl, List.nodup_nil⟩
          by_cases hp : BobilV2.pageSizeOf r = 0
          · rw [if_pos hp]; exact BobilV2.nodup_of_stInv h0
          · rw [if_neg hp]
            exact BobilV2.nodup_of_stInv (BobilV2.stInv_fold api _ _ h0)
  · intro off hoff hne
    cases h : api 0 with
    | none =>
        rw [BobilV2.requestedOffsets_none api h] at hoff
        simp at hoff; exact absurd hoff hne
    | some r =>
        rw [BobilV2.requestedOffsets_some api r h] at hoff
        by_cases hc : r.match_count = 0 ∧ r.docs = []
        · rw [if_pos hc] at hoff; simp at hoff; exact absurd hoff hne
        · rw [if_neg hc] at hoff
          by_cases hp : BobilV2.pageSizeOf r = 0
          · rw [if_pos hp] at hoff; simp at hoff; exact absurd hoff hne
          · rw [if_neg hp] at hoff
            rcases List.mem_cons.mp hoff with h0 | hmem
            · exact absurd h0 hne
            · rcases (BobilV2.mem_rangeStep hp).mp hmem with ⟨i, rfl, hlt⟩
              refine ⟨r, rfl, ⟨i + 1, by ring⟩, Nat.le_add_right _ _, hlt⟩
  · intro r hr hc hp k hk hlt
    rw [BobilV2.requestedOffsets_some api r hr, if_neg hc, if_neg hp]
    refine List.mem_cons.mpr (Or.inr ?_)
    obtain ⟨m, rfl⟩ : ∃ m, k = m + 1 := ⟨k - 1, by omega⟩
    refine (BobilV2.mem_rangeStep hp).mpr ⟨m, by ring, hlt⟩

/-- C6 counterexample: at offset 2 the API returns a page with no further
data, yet the loop does not stop — offset 4 is still requested and its item
"x" ends up in the result.  This refutes the claim that a subsequent
empty page stops the fetch loop early. -/
theorem C6_counterexample :
    BobilV2.c6api 2 = some ⟨6, []⟩ ∧
    BobilV2.requestedOffsets BobilV2.c6api = [0, 2, 4] ∧
    "x" ∈ (BobilV2.fetch_all_pages BobilV2.c6api).map BobilV2.Ad.Finnkode := by
  refine ⟨rfl, by decide, by decide⟩

/-- C6 amended: only the *first* page coming back with no docs stops the
fetch early (no later offsets are requested); a subsequent page whose
fetch fails is logged and treated exactly like a page contributing no
items — the loop continues with the remaining offsets, and both the
result and the set of requested offsets are as if that page were empty. -/
theorem C6_amended_no_early_stop :
    (∀ (api : Nat → Option BobilV2.FinnResponse) r, api 0 = some r → r.docs = [] →
      BobilV2.requestedOffsets api = [0]) ∧
    (∀ (api : Nat → Option BobilV2.FinnResponse) (o : Nat), o ≠ 0 →
      BobilV2.fetch_all_pages (fun x => if x = o then none else api x)
        = BobilV2.fetch_all_pages (fun x => if x = o then some ⟨0, []⟩ else api x) ∧
      BobilV2.requestedOffsets (fun x => if x = o then none else api x)
        = BobilV2.requestedOffsets (fun x => if x = o then some ⟨0, []⟩ else api x)) := by
  constructor
  · intro api r hr hdocs
    rw [BobilV2.requestedOffsets_some api r hr]
    by_cases hc : r.match_count = 0 ∧ r.docs = []
    · rw [if_pos hc]
    · rw [if_neg hc, if_pos (by simp [BobilV2.pageSizeOf, hdocs])]
  · intro api o ho
    have h1 : (fun x => if x = o then none else api x) 0 = api 0 := by
      simp [Ne.symm ho]
    have h2 : (fun x => if x = o then some (⟨0, []⟩ : BobilV2.FinnResponse) else api x) 0
        = api 0 := by simp [Ne.symm ho]
    have hstep : BobilV2.pageStep (fun x => if x = o then none else api x)
        = BobilV2.pageStep (fun x => if x = o then some ⟨0, []⟩ else api x) := by
      funext st off
      unfold BobilV2.pageStep
      by_cases hoo : off = o
      · subst hoo
        have e1 : (if off = off then (none : Option BobilV2.FinnResponse) else api off)
            = none := if_pos rfl
        have e2 : (if off = off then some (⟨0, []⟩ : BobilV2.FinnResponse) else api off)
            = some ⟨0, []⟩ := if_pos rfl
        beta_reduce
        rw [e1, e2]
        rfl
      · simp [hoo]
    constructor
    · cases h : api 0 with
      | none =>
          rw [BobilV2.fetch_all_pages_none _ (h1.trans h),
            BobilV2.fetch_all_pages_none _ (h2.trans h)]
      | some r =>
          rw [BobilV2.fetch_all_pages_some _ r (h1.trans h),
            BobilV2.fetch_all_pages_some _ r (h2.trans h), hstep]
    · cases h : api 0 with
      | none =>
          rw [BobilV2.requestedOffsets_none _ (h1.trans h),
            BobilV2.requestedOffsets_none _ (h2.trans h)]
      | some r =>
          rw [BobilV2.requestedOffsets_some _ r (h1.trans h),
            BobilV2.requestedOffsets_some _ r (h2.trans h)]

/-- Witness for C6's amended theorem at concrete inputs: an API whose first
page has no docs requests nothing beyond offset 0, and failing `c6api` at
offset 2 produces the same result as an empty page there. -/
theorem C6_amended_no_early_stop_witness :
    BobilV2.requestedOffsets (fun _ => some ⟨5, []⟩) = [0] ∧
    BobilV2.fetch_all_pages (fun x => if x = 2 then none else BobilV2.c6api x)
      = BobilV2.fetch_all_pages
          (fun x => if x = 2 then some ⟨0, []⟩ else BobilV2.c6api x) :=
  ⟨C6_amended_no_early_stop.1 (fun _ => some ⟨5, []⟩) ⟨5, []⟩ rfl rfl,
   (C6_amended_no_early_stop.2 BobilV2.c6api 2 (by decide)).1⟩

/-- Witness for C1 at a concrete API: the dedup result has no duplicate
ids, offset 2 is a positive multiple of the page size below the total, and
offset `2 = 1 * page_size` is indeed requested. -/
theorem C1_pagination_dedup_and_offsets_witness :
    ((BobilV2.fetch_all_pages BobilV2.c6api).map BobilV2.Ad.Finnkode).Nodup ∧
    (∃ r, BobilV2.c6api 0 = some r ∧ BobilV2.pageSizeOf r ∣ 4 ∧
      BobilV2.pageSizeOf r ≤ 4 ∧ 4 < BobilV2.totalMatchesOf r) ∧
    1 * BobilV2.pageSizeOf ⟨6, [BobilV2.exDoc "a", BobilV2.exDoc "b"]⟩
      ∈ BobilV2.requestedOffsets BobilV2.c6api :=
  ⟨(C1_pagination_dedup_and_offsets BobilV2.c6api).1,
   (C1_pagination_dedup_and_offsets BobilV2.c6api).2.1 4 (by decide) (by decide),
   (C1_pagination_dedup_and_offsets BobilV2.c6api).2.2
     ⟨6, [BobilV2.exDoc "a", BobilV2.exDoc "b"]⟩ rfl (by decide) (by decide)
     1 (by decide) (by decide)⟩

namespace BobilV2

lemma v2step_skip (dry : Bool) (st : V2DB × Counts) (ad : Ad)
    (h : normalizePrice (optNatStr ad.Pris) = none) :
    v2UpdateStep dry st ad = st := by
  unfold v2UpdateStep; rw [h]

lemma v2step_some (dry : Bool) (st : V2DB × Counts) (ad : Ad) (ny : Nat)
    (h : normalizePrice (optNatStr ad.Pris) = some ny) :
    v2UpdateStep dry st ad =
      ((if dry then st.1
        else { st.1 with bobil := upsertV2 st.1.bobil ad.Finnkode (nyeVerdier ad ny) }),
       match assocFind st.1.bobil ad.Finnkode with
       | some old =>
           if anyChange old (nyeVerdier ad ny) ny then
             { st.2 with endrede := st.2.endrede + 1 }
           else { st.2 with uendrede := st.2.uendrede + 1 }
       | none => { st.2 with nye := st.2.nye + 1 }) := by
  unfold v2UpdateStep; rw [h]

lemma v2step_dry_fst (st : V2DB × Counts) (ad : Ad) :
    (v2UpdateStep true st ad).1 = st.1 := by
  cases h : normalizePrice (optNatStr ad.Pris) with
  | none => rw [v2step_skip true st ad h]
  | some ny => rw [v2step_some true st ad ny h]; simp

lemma fold_dry_fst (ads : List Ad) :
    ∀ st : V2DB × Counts, ((ads.foldl (v2UpdateStep true) st).1) = st.1 := by
  induction ads with
  | nil => intro st; rfl
  | cons a rest ih =>
      intro st
      rw [List.foldl_cons, ih (v2UpdateStep true st a), v2step_dry_fst]

lemma v2step_prisendringer (dry : Bool) (st : V2DB × Counts) (ad : Ad) :
    (v2UpdateStep dry st ad).1.prisendringer = st.1.prisendringer := by
  cases h : normalizePrice (optNatStr ad.Pris) with
  | none => rw [v2step_skip dry st ad h]
  | some ny =>
      rw [v2step_some dry st ad ny h]
      cases dry <;> simp

lemma fold_prisendringer (dry : Bool) (ads : List Ad) :
    ∀ st : V2DB × Counts,
      ((ads.foldl (v2UpdateStep dry) st).1).prisendringer = st.1.prisendringer := by
  induction ads with
  | nil => intro st; rfl
  | cons a rest ih =>
      intro st
      rw [List.foldl_cons, ih (v2UpdateStep dry st a), v2step_prisendringer]

lemma v2step_sum (dry : Bool) (st : V2DB × Counts) (ad : Ad) :
    sumCounts (v2UpdateStep dry st ad).2
      = sumCounts st.2
        + (if (normalizePrice (optNatStr ad.Pris)).isSome then 1 else 0) := by
  cases h : normalizePrice (optNatStr ad.Pris) with
  | none => rw [v2step_skip dry st ad h]; simp
  | some ny =>
      rw [v2step_some dry st ad ny h]
      cases hf : assocFind st.1.bobil ad.Finnkode with
      | none => simp [sumCounts]; omega
      | some old =>
          by_cases hc : anyChange old (nyeVerdier ad ny) ny
          · simp [hf, hc, sumCounts]; omega
          · simp [hf, hc, sumCounts]; omega

lemma fold_sum (dry : Bool) (ads : List Ad) :
    ∀ st : V2DB × Counts,
      sumCounts ((ads.foldl (v2UpdateStep dry) st).2)
        = sumCounts st.2
          + (ads.filter
              (fun ad => (normalizePrice (optNatStr ad.Pris)).isSome)).length := by
  induction ads with
  | nil => intro st; simp
  | cons a rest ih =>
      intro st
      rw [List.foldl_cons, ih (v2UpdateStep dry st a), v2step_sum]
      by_cases hp : (normalizePrice (optNatStr a.Pris)).isSome
      · simp [List.filter_cons, hp]; omega
      · simp [List.filter_cons, hp]

lemma assocFind_map_set {fk : String} (vals : List String) :
    ∀ rows : List (String × List String),
      rows.any (fun r => r.1 = fk) = true →
      assocFind (rows.map (fun r => if r.1 = fk then (fk, vals) else r)) fk
        = some vals := by
  intro rows
  induction rows with
  | nil => intro h; simp at h
  | cons r rest ih =>
      intro h
      by_cases hr : r.1 = fk
      · simp only [List.map_cons, if_pos hr]
        rw [assocFind, if_pos rfl]
      · have h2 : rest.any (fun r => r.1 = fk) = true := by
          simp [List.any_cons, hr] at h
          simpa using h
        simp only [List.map_cons, if_neg hr]
        rw [assocFind, if_neg hr]
        exact ih h2

lemma assocFind_append_new {β : Type} (fk : String) (v : β) :
    ∀ rows : List (String × β),
      rows.any (fun r => r.1 = fk) = false →
      assocFind (rows ++ [(fk, v)]) fk = some v := by
  intro rows
  induction rows with
  | nil => intro _; simp [assocFind]
  | cons r rest ih =>
      intro h
      have hr : ¬ r.1 = fk := by
        intro hc; simp [List.any_cons, hc] at h
      have h2 : rest.any (fun r => r.1 = fk) = false := by
        simp [List.any_cons, hr] at h
        simpa using h
      rw [List.cons_append, assocFind, if_neg hr]
      exact ih h2

lemma assocFind_upsertV2 (rows : List (String × List String)) (fk : String)
    (vals : List String) :
    assocFind (upsertV2 rows fk vals) fk = some vals := by
  unfold upsertV2
  by_cases h : rows.any (fun r => r.1 = fk)
  · rw [if_pos h]; exact assocFind_map_set vals rows h
  · rw [if_neg h]
    exact assocFind_append_new fk vals rows (Bool.eq_false_iff.mpr h)

end BobilV2

namespace Bobil

lemma compareStep_skip (existing : List (String × Option String)) (db : DB)
    (ad : Ad) (h : normalizePrice ad.Pris = none) :
    compareStep existing db ad = db := by
  unfold compareStep; rw [h]

end Bobil

/-- C7: in dry-run mode `update_database` still walks every record,
comparing it against the stored rows and classifying it (the three
counters add up to the number of price-parseable records), but performs
no INSERT/UPDATE: the stored tables are unchanged after the call for
every input list. -/
theorem C7_dry_run_no_writes (ads : List BobilV2.Ad) (db : BobilV2.V2DB) :
    (BobilV2.update_database ads true db).1 = db ∧
    BobilV2.sumCounts (BobilV2.update_database ads true db).2
      = (ads.filter
          (fun ad => (normalizePrice (optNatStr ad.Pris)).isSome)).length := by
  constructor
  · exact BobilV2.fold_dry_fst ads (db, ⟨0, 0, 0⟩)
  · have h := BobilV2.fold_sum true ads (db, ⟨0, 0, 0⟩)
    simpa [BobilV2.update_database, BobilV2.sumCounts] using h

/-- C8: a record whose price has no digits (normalization returns `None`)
is skipped by the diff-and-persist step of both scraper revisions: the run
continues and produces exactly the result of the run without that record,
so nothing is written for it. -/
theorem C8_unparseable_price_skipped :
    (∀ (pre post : List BobilV2.Ad) (ad : BobilV2.Ad) (dry : Bool)
       (db : BobilV2.V2DB),
       normalizePrice (optNatStr ad.Pris) = none →
       BobilV2.update_database (pre ++ ad :: post) dry db
         = BobilV2.update_database (pre ++ post) dry db) ∧
    (∀ (pre post : List Bobil.Ad) (ad : Bobil.Ad)
       (existing : List (String × Option String)) (db : Bobil.DB),
       normalizePrice ad.Pris = none →
       Bobil.compare_prices_and_save (pre ++ ad :: post) existing db
         = Bobil.compare_prices_and_save (pre ++ post) existing db) := by
  constructor
  · intro pre post ad dry db h
    unfold BobilV2.update_database
    rw [List.foldl_append, List.foldl_append, List.foldl_cons,
      BobilV2.v2step_skip dry _ ad h]
  · intro pre post ad existing db h
    unfold Bobil.compare_prices_and_save
    rw [List.foldl_append, List.foldl_append, List.foldl_cons,
      Bobil.compareStep_skip existing _ ad h]

/-- Witness for C8 at concrete records with digit-free prices: the run
with the bad record equals the run without it, in both revisions. -/
theorem C8_unparseable_price_skipped_witness :
    normalizePrice (optNatStr BobilV2.c8Ad.Pris) = none ∧
    BobilV2.update_database [BobilV2.c8Ad] false ⟨[], []⟩
      = BobilV2.update_database [] false ⟨[], []⟩ ∧
    normalizePrice Bobil.c8AdV1.Pris = none ∧
    Bobil.compare_prices_and_save [Bobil.c8AdV1] [] ⟨[], []⟩
      = Bobil.compare_prices_and_save [] [] ⟨[], []⟩ :=
  ⟨by decide,
   C8_unparseable_price_skipped.1 [] [] BobilV2.c8Ad false ⟨[], []⟩ (by decide),
   by decide,
   C8_unparseable_price_skipped.2 [] [] Bobil.c8AdV1 [] ⟨[], []⟩ (by decide)⟩

/-- C2 counterexample, against `update_database` (bobil_v2.py), one of
the claim's two cited implementations: (a) for a stored listing whose
price genuinely changes (450000 → 500000), the run appends no
price-change row at all — the `prisendringer` table stays empty —
refuting "exactly one price-change row is appended"; (b) for a record
whose price normalizes to the stored price but whose title changed, the
run counts the listing as changed (endrede = 1, uendrede = 0), refuting
"the listing is counted as unchanged". -/
theorem C2_counterexample :
    normalizePrice (optNatStr BobilV2.c2AdNewPrice.Pris) = some 500000 ∧
    normalizePrice "450 000 kr" = some 450000 ∧
    (BobilV2.update_database [BobilV2.c2AdNewPrice] false BobilV2.c2Db).1.prisendringer
      = [] ∧
    (BobilV2.update_database [BobilV2.c2AdNewPrice] false BobilV2.c2Db).2
      = ⟨0, 1, 0⟩ ∧
    normalizePrice (optNatStr BobilV2.c2AdSamePrice.Pris) = some 450000 ∧
    (BobilV2.update_database [BobilV2.c2AdSamePrice] false BobilV2.c2Db).2
      = ⟨0, 1, 0⟩ :=
  ⟨by decide, by decide, by decide, by decide, by decide, by decide⟩

/-- C2 amended: price-change rows are written only by the older revision's
`compare_prices_and_save`: there, equal normalized prices write nothing,
a genuinely different price appends exactly one price-change row and
upserts the listing with the newly formatted price, and an unknown id is
just inserted.  In bobil_v2's `update_database`, `prisendringer` is never
touched; a new id is counted as new and inserted, while a stored listing
is counted unchanged only when all ten compared fields (including the
normalized price) are unchanged, otherwise changed; the upsert always
rewrites the row with the new values, the price as its integer. -/
theorem C2_amended_price_diff :
    (∀ (ad : Bobil.Ad) (existing : List (String × Option String)) (db : Bobil.DB)
       (gv : Option String) (n : Nat),
       normalizePrice ad.Pris = some n →
       assocFind existing ad.Finnkode = some gv →
       normalizePrice (optStr gv) = some n →
       Bobil.compare_prices_and_save [ad] existing db = db) ∧
    (∀ (ad : Bobil.Ad) (existing : List (String × Option String)) (db : Bobil.DB)
       (gv : Option String) (m n : Nat),
       normalizePrice ad.Pris = some n →
       assocFind existing ad.Finnkode = some gv →
       normalizePrice (optStr gv) = some m → m ≠ n →
       Bobil.compare_prices_and_save [ad] existing db =
         { bobil := Bobil.upsert db.bobil (Bobil.rowOf ad)
           prisendringer := db.prisendringer
             ++ [⟨ad.Finnkode, thousandSep n ++ " kr"⟩] } ∧
       (Bobil.rowOf ad).Pris = some (thousandSep n ++ " kr")) ∧
    (∀ (ad : Bobil.Ad) (existing : List (String × Option String)) (db : Bobil.DB)
       (n : Nat),
       normalizePrice ad.Pris = some n →
       assocFind existing ad.Finnkode = none →
       Bobil.compare_prices_and_save [ad] existing db =
         { db with bobil := Bobil.upsert db.bobil (Bobil.rowOf ad) }) ∧
    (∀ (ads : List BobilV2.Ad) (dry : Bool) (db : BobilV2.V2DB),
       (BobilV2.update_database ads dry db).1.prisendringer = db.prisendringer) ∧
    (∀ (ad : BobilV2.Ad) (db : BobilV2.V2DB) (n : Nat),
       normalizePrice (optNatStr ad.Pris) = some n →
       assocFind db.bobil ad.Finnkode = none →
       BobilV2.update_database [ad] false db =
         ({ db with
            bobil := BobilV2.upsertV2 db.bobil ad.Finnkode (BobilV2.nyeVerdier ad n) },
          ⟨1, 0, 0⟩)) ∧
    (∀ (ad : BobilV2.Ad) (db : BobilV2.V2DB) (old : List String) (n : Nat),
       normalizePrice (optNatStr ad.Pris) = some n →
       assocFind db.bobil ad.Finnkode = some old →
       (BobilV2.update_database [ad] false db).2
         = (if BobilV2.anyChange old (BobilV2.nyeVerdier ad n) n then ⟨0, 1, 0⟩
            else ⟨0, 0, 1⟩) ∧
       assocFind (BobilV2.update_database [ad] false db).1.bobil ad.Finnkode
         = some (BobilV2.nyeVerdier ad n)) := by
  refine ⟨?_, ?_, ?_, ?_, ?_, ?_⟩
  · intro ad existing db gv n h1 h2 h3
    show Bobil.compareStep existing db ad = db
    unfold Bobil.compareStep
    simp only [h1, h2, h3]
    simp
  · intro ad existing db gv m n h1 h2 h3 hne
    constructor
    · show Bobil.compareStep existing db ad = _
      unfold Bobil.compareStep
      simp only [h1, h2, h3]
      rw [if_pos hne]
      simp [Bobil.update_bobil_table, Bobil.log_price_change]
    · simp [Bobil.rowOf, formatPriceStr, h1]
  · intro ad existing db n h1 h2
    show Bobil.compareStep existing db ad = _
    unfold Bobil.compareStep
    simp only [h1, h2]
    simp [Bobil.update_bobil_table]
  · intro ads dry db
    exact BobilV2.fold_prisendringer dry ads (db, ⟨0, 0, 0⟩)
  · intro ad db n h1 h2
    show BobilV2.v2UpdateStep false (db, ⟨0, 0, 0⟩) ad = _
    rw [BobilV2.v2step_some false (db, ⟨0, 0, 0⟩) ad n h1]
    simp [h2]
  · intro ad db old n h1 h2
    have hstep : BobilV2.update_database [ad] false db
        = BobilV2.v2UpdateStep false (db, ⟨0, 0, 0⟩) ad := rfl
    rw [hstep, BobilV2.v2step_some false (db, ⟨0, 0, 0⟩) ad n h1]
    constructor
    · by_cases hc : BobilV2.anyChange old (BobilV2.nyeVerdier ad n) n <;>
        simp [h2, hc]
    · simp [h2, BobilV2.assocFind_upsertV2]

/-- Witness for C2's amended theorem at concrete data: equal normalized
prices write nothing in `compare_prices_and_save`; in `update_database`
the stored listing with a changed title is classified by the ten-field
comparison. -/
theorem C2_amended_price_diff_witness :
    Bobil.compare_prices_and_save [Bobil.c2AdB] [("1", some "450 000 kr")] ⟨[], []⟩
      = ⟨[], []⟩ ∧
    (BobilV2.update_database [BobilV2.c2AdSamePrice] false BobilV2.c2Db).2
      = (if BobilV2.anyChange BobilV2.c2StoredFields
            (BobilV2.nyeVerdier BobilV2.c2AdSamePrice 450000) 450000
         then ⟨0, 1, 0⟩ else ⟨0, 0, 1⟩) :=
  ⟨C2_amended_price_diff.1 Bobil.c2AdB [("1", some "450 000 kr")] ⟨[], []⟩
     (some "450 000 kr") 450000 (by decide) (by decide) (by decide),
   (C2_amended_price_diff.2.2.2.2.2 BobilV2.c2AdSamePrice BobilV2.c2Db
     BobilV2.c2StoredFields 450000 (by decide) (by decide)).1⟩

/-- C9: the webhook handler issues exactly one outbound Home Assistant
state update per key of the posted flat JSON object, to
`sensor.<key>_ekstern` with the key's value as the state; a missing or
empty JSON body yields a 400 with no outbound update; in particular
`{"temp_garage": 17.3}` produces one update to
`sensor.temp_garage_ekstern` with state 17.3. -/
theorem C9_webhook_one_update_per_key :
    (∀ (α : Type) (kvs : List (String × α)), kvs ≠ [] →
       Webhook.webhook (some kvs)
         = (200, kvs.map (fun p =>
             { entity_id := "sensor." ++ p.1 ++ "_ekstern", state := p.2
               friendly_name := Webhook.friendlyOf p.1 })) ∧
       (Webhook.webhook (some kvs)).2.length = kvs.length) ∧
    Webhook.webhook (α := String) none = (400, []) ∧
    Webhook.webhook (α := String) (some []) = (400, []) ∧
    Webhook.webhook (some [("temp_garage", "17.3")])
      = (200, [{ entity_id := "sensor.temp_garage_ekstern", state := "17.3"
                 friendly_name := "Temp garage" }]) := by
  refine ⟨?_, rfl, rfl, by decide⟩
  intro α kvs h
  cases kvs with
  | nil => exact absurd rfl h
  | cons a t => exact ⟨rfl, by simp [Webhook.webhook]⟩

/-- Witness for C9 at the concrete body of the claim. -/
theorem C9_webhook_one_update_per_key_witness :
    Webhook.webhook (some [("temp_garage", "17.3")])
      = (200, [{ entity_id := "sensor.temp_garage_ekstern", state := "17.3"
                 friendly_name := Webhook.friendlyOf "temp_garage" }]) ∧
    (Webhook.webhook (some [("temp_garage", "17.3")])).2.length = 1 :=
  C9_webhook_one_update_per_key.1 String [("temp_garage", "17.3")] (by decide)

namespace Ukenytt

lemma uploadSave_classify (proc : String → UkState → UkState × Bool)
    (child : String) (name : Option String) (data : String) (st : UkState) :
    uploadSave proc child name data st = (400, st) ∨
    ((uploadSave proc child name data st).1 = 200 ∨
     (uploadSave proc child name data st).1 = 500) := by
  unfold uploadSave
  split
  · exact Or.inl rfl
  · split
    · exact Or.inl rfl
    · right
      by_cases hok : (proc child (writeFiles child name data st)).2 <;> simp [hok]

lemma uploadSave_reject (proc : String → UkState → UkState × Bool)
    (child : String) (name : Option String) (data : String) (st : UkState) :
    ((uploadSave proc child name data st).1 = 400 ∨
      (uploadSave proc child name data st).1 = 401) →
    (uploadSave proc child name data st).2 = st := by
  intro h
  rcases uploadSave_classify proc child name data st with hc | hc
  · rw [hc]
  · exfalso
    rcases h with h | h <;> rcases hc with hc | hc <;> omega

end Ukenytt

/-- C10: whenever `POST /upload` rejects a request before accepting the
file — invalid API key (401), blank or unknown child (400), no file with
a non-PDF content type (400), empty filename (400), oversized body (400),
or a body without the %PDF magic (400) — the stored per-child state
(PDFs, saved filenames, info files, sensor payloads) is left unchanged:
all validations run before any write. -/
theorem C10_upload_rejections_frame (proc : String → Ukenytt.UkState → Ukenytt.UkState × Bool)
    (cfg : Ukenytt.UkConfig) (req : Ukenytt.UkRequest) (st : Ukenytt.UkState) :
    (((Ukenytt.upload_pdf proc cfg req st).1 = 400 ∨
      (Ukenytt.upload_pdf proc cfg req st).1 = 401) →
      (Ukenytt.upload_pdf proc cfg req st).2 = st) ∧
    (cfg.API_KEY ≠ "" → Ukenytt.providedKey req ≠ some cfg.API_KEY →
      Ukenytt.upload_pdf proc cfg req st = (401, st)) ∧
    (¬(cfg.API_KEY ≠ "" ∧ Ukenytt.providedKey req ≠ some cfg.API_KEY) →
      pyStrip req.child = "" →
      Ukenytt.upload_pdf proc cfg req st = (400, st)) ∧
    (¬(cfg.API_KEY ≠ "" ∧ Ukenytt.providedKey req ≠ some cfg.API_KEY) →
      pyStrip req.child ≠ "" →
      Ukenytt.canonicalChild cfg.CHILDREN (pyStrip req.child) = none →
      Ukenytt.upload_pdf proc cfg req st = (400, st)) ∧
    (∀ child, ¬(cfg.API_KEY ≠ "" ∧ Ukenytt.providedKey req ≠ some cfg.API_KEY) →
      pyStrip req.child ≠ "" →
      Ukenytt.canonicalChild cfg.CHILDREN (pyStrip req.child) = some child →
      req.file = none →
      (∀ ct, req.content_type = some ct →
        ¬(ct ≠ "" ∧ strContains (strLower ct) "pdf")) →
      Ukenytt.upload_pdf proc cfg req st = (400, st)) ∧
    (∀ child d, ¬(cfg.API_KEY ≠ "" ∧ Ukenytt.providedKey req ≠ some cfg.API_KEY) →
      pyStrip req.child ≠ "" →
      Ukenytt.canonicalChild cfg.CHILDREN (pyStrip req.child) = some child →
      req.file = some ("", d) →
      Ukenytt.upload_pdf proc cfg req st = (400, st)) ∧
    (∀ child name data, Ukenytt.MAX_PDF_SIZE < data.length →
      Ukenytt.uploadSave proc child name data st = (400, st)) ∧
    (∀ child name data, ¬(Ukenytt.MAX_PDF_SIZE < data.length) →
      ¬("%PDF".data.isPrefixOf data.data = true) →
      Ukenytt.uploadSave proc child name data st = (400, st)) := by
  refine ⟨?_, ?_, ?_, ?_, ?_, ?_, ?_, ?_⟩
  · unfold Ukenytt.upload_pdf
    split
    · intro _; rfl
    · split
      · intro _; rfl
      · split
        · intro _; rfl
        · split
          · split
            · split
              · exact Ukenytt.uploadSave_reject proc _ none req.raw_data st
              · intro _; rfl
            · intro _; rfl
          · split
            · intro _; rfl
            · exact Ukenytt.uploadSave_reject proc _ _ _ st
  · intro h1 h2
    unfold Ukenytt.upload_pdf
    rw [if_pos ⟨h1, h2⟩]
  · intro h1 h2
    unfold Ukenytt.upload_pdf
    rw [if_neg h1, if_pos h2]
  · intro h1 h2 h3
    unfold Ukenytt.upload_pdf
    rw [if_neg h1, if_neg h2]
    simp only [h3]
  · intro child h1 h2 h3 h4 h5
    unfold Ukenytt.upload_pdf
    rw [if_neg h1, if_neg h2]
    simp only [h3, h4]
    cases hct : req.content_type with
    | none => rfl
    | some ct => simp only [if_neg (h5 ct hct)]
  · intro child d h1 h2 h3 h4
    unfold Ukenytt.upload_pdf
    rw [if_neg h1, if_neg h2]
    simp only [h3, h4]
    simp
  · intro child name data h
    unfold Ukenytt.uploadSave
    rw [if_pos h]
  · intro child name data h1 h2
    unfold Ukenytt.uploadSave
    rw [if_neg h1, if_pos (by simp [h2])]

/-- Witness for C10 at concrete rejected requests against a state that
already holds artifacts for the child: each rejection returns its status
code with the state unchanged. -/
theorem C10_upload_rejections_frame_witness :
    Ukenytt.upload_pdf Ukenytt.c10Proc Ukenytt.c10Cfg Ukenytt.c10ReqBadKey
      Ukenytt.c10St = (401, Ukenytt.c10St) ∧
    (Ukenytt.upload_pdf Ukenytt.c10Proc Ukenytt.c10Cfg Ukenytt.c10ReqBadKey
      Ukenytt.c10St).2 = Ukenytt.c10St ∧
    Ukenytt.upload_pdf Ukenytt.c10Proc Ukenytt.c10Cfg Ukenytt.c10ReqNoChild
      Ukenytt.c10St = (400, Ukenytt.c10St) ∧
    Ukenytt.upload_pdf Ukenytt.c10Proc Ukenytt.c10Cfg Ukenytt.c10ReqUnknownChild
      Ukenytt.c10St = (400, Ukenytt.c10St) ∧
    Ukenytt.upload_pdf Ukenytt.c10Proc Ukenytt.c10Cfg Ukenytt.c10ReqNoFile
      Ukenytt.c10St = (400, Ukenytt.c10St) ∧
    Ukenytt.upload_pdf Ukenytt.c10Proc Ukenytt.c10Cfg Ukenytt.c10ReqEmptyName
      Ukenytt.c10St = (400, Ukenytt.c10St) ∧
    Ukenytt.uploadSave Ukenytt.c10Proc "Frida" none "HELLO" Ukenytt.c10St
      = (400, Ukenytt.c10St) :=
  ⟨(C10_upload_rejections_frame Ukenytt.c10Proc Ukenytt.c10Cfg Ukenytt.c10ReqBadKey
      Ukenytt.c10St).2.1 (by decide) (by decide),
   (C10_upload_rejections_frame Ukenytt.c10Proc Ukenytt.c10Cfg Ukenytt.c10ReqBadKey
      Ukenytt.c10St).1 (Or.inr (by decide)),
   (C10_upload_rejections_frame Ukenytt.c10Proc Ukenytt.c10Cfg Ukenytt.c10ReqNoChild
      Ukenytt.c10St).2.2.1 (by decide) (by decide),
   (C10_upload_rejections_frame Ukenytt.c10Proc Ukenytt.c10Cfg
      Ukenytt.c10ReqUnknownChild Ukenytt.c10St).2.2.2.1
        (by decide) (by decide) (by decide),
   (C10_upload_rejections_frame Ukenytt.c10Proc Ukenytt.c10Cfg Ukenytt.c10ReqNoFile
      Ukenytt.c10St).2.2.2.2.1 "Frida" (by decide) (by decide) (by decide)
        (by decide) (by decide),
   (C10_upload_rejections_frame Ukenytt.c10Proc Ukenytt.c10Cfg
      Ukenytt.c10ReqEmptyName Ukenytt.c10St).2.2.2.2.2.1 "Frida" "%PDFdata"
        (by decide) (by decide) (by decide) (by decide),
   (C10_upload_rejections_frame Ukenytt.c10Proc Ukenytt.c10Cfg
      Ukenytt.c10ReqEmptyName Ukenytt.c10St).2.2.2.2.2.2.2 "Frida" none "HELLO"
        (by decide) (by decide)⟩

/-- C4: week-number resolution tries its sources in a fixed order and
returns the first hit — filename `uke`-pattern, then any filename digits,
then the `Uke NN` pattern in the PDF free text, then the same pattern over
the raw table texts — and falls back to the sentinel "0"; in particular a
filename containing "uke5" yields "5" even when the body holds "Uke 12",
and absent filename digits the body text pattern is used. -/
theorem C4_week_number_resolution_order :
    (∀ (name : String) (tables : List String) (text d : String),
       Ukenytt.ukeSearch false (strLower (Ukenytt.pathStem name)).data = some d →
       Ukenytt.extract_week_number name tables text = d) ∧
    (∀ name tables text w,
       Ukenytt.ukeSearch false (strLower (Ukenytt.pathStem name)).data = none →
       Ukenytt.digitsFallback (strLower (Ukenytt.pathStem name)) = some w →
       Ukenytt.extract_week_number name tables text = w) ∧
    (∀ name tables text d,
       Ukenytt.ukeSearch false (strLower (Ukenytt.pathStem name)).data = none →
       Ukenytt.digitsFallback (strLower (Ukenytt.pathStem name)) = none →
       text ≠ "" → Ukenytt.ukeSearch true text.data = some d →
       Ukenytt.extract_week_number name tables text = d) ∧
    (∀ name tables text d,
       Ukenytt.ukeSearch false (strLower (Ukenytt.pathStem name)).data = none →
       Ukenytt.digitsFallback (strLower (Ukenytt.pathStem name)) = none →
       (text ≠ "" → Ukenytt.ukeSearch true text.data = none) →
       tables.findSome? (fun t => Ukenytt.ukeSearch true t.data) = some d →
       Ukenytt.extract_week_number name tables text = d) ∧
    (∀ name tables text,
       Ukenytt.ukeSearch false (strLower (Ukenytt.pathStem name)).data = none →
       Ukenytt.digitsFallback (strLower (Ukenytt.pathStem name)) = none →
       (text ≠ "" → Ukenytt.ukeSearch true text.data = none) →
       tables.findSome? (fun t => Ukenytt.ukeSearch true t.data) = none →
       Ukenytt.extract_week_number name tables text = "0") ∧
    Ukenytt.extract_week_number "uke5.pdf" [] "Uke 12" = "5" ∧
    Ukenytt.extract_week_number "plan.pdf" [] "Uke 12" = "12" := by
  have hif : ∀ (text : String), (text ≠ "" → Ukenytt.ukeSearch true text.data = none) →
      (if text ≠ "" then Ukenytt.ukeSearch true text.data else none) = none := by
    intro text h
    by_cases ht : text = ""
    · rw [if_neg (by simp [ht])]
    · rw [if_pos ht, h ht]
  refine ⟨?_, ?_, ?_, ?_, ?_, by decide, by decide⟩
  · intro name tables text d h1
    unfold Ukenytt.extract_week_number
    simp only [h1]
  · intro name tables text w h1 h2
    unfold Ukenytt.extract_week_number
    simp only [h1, h2]
  · intro name tables text d h1 h2 h3 h4
    unfold Ukenytt.extract_week_number
    simp only [h1, h2, if_pos h3, h4]
  · intro name tables text d h1 h2 h3 h4
    unfold Ukenytt.extract_week_number
    simp only [h1, h2, hif text h3, h4]
  · intro name tables text h1 h2 h3 h4
    unfold Ukenytt.extract_week_number
    simp only [h1, h2, hif text h3, h4]

/-- Witness for C4 at concrete file names and texts: every source in the
priority chain is exercised. -/
theorem C4_week_number_resolution_order_witness :
    Ukenytt.extract_week_number "uke5.pdf" [] "Uke 12" = "5" ∧
    Ukenytt.extract_week_number "plan 7.pdf" [] "Uke 12" = "7" ∧
    Ukenytt.extract_week_number "plan.pdf" [] "Uke 12" = "12" ∧
    Ukenytt.extract_week_number "plan.pdf" ["col Uke 3"] "" = "3" ∧
    Ukenytt.extract_week_number "plan.pdf" [] "" = "0" :=
  ⟨C4_week_number_resolution_order.1 "uke5.pdf" [] "Uke 12" "5" (by decide),
   C4_week_number_resolution_order.2.1 "plan 7.pdf" [] "Uke 12" "7"
     (by decide) (by decide),
   C4_week_number_resolution_order.2.2.1 "plan.pdf" [] "Uke 12" "12"
     (by decide) (by decide) (by decide) (by decide),
   C4_week_number_resolution_order.2.2.2.1 "plan.pdf" ["col Uke 3"] "" "3"
     (by decide) (by decide) (fun h => absurd rfl h) (by decide),
   C4_week_number_resolution_order.2.2.2.2.1 "plan.pdf" [] ""
     (by decide) (by decide) (fun h => absurd rfl h) (by decide)⟩

namespace Ukenytt

lemma pySlice_eq_drop_take {α : Type} (l : List α) (a b : Nat)
    (ha : a ≤ l.length) (hb : b ≤ l.length) :
    pySlice l (a : Int) (b : Int) = (l.drop a).take (b - a) := by
  unfold pySlice pyBound
  rw [if_neg (by omega), if_neg (by omega)]
  rw [Int.toNat_natCast, Int.toNat_natCast, Nat.min_eq_left hb, Nat.min_eq_left ha]
  by_cases hab : a ≤ b
  · rw [List.take_drop, show a + (b - a) = b from by omega]
  · have h0 : b - a = 0 := by omega
    have hlen : (l.take b).length ≤ a := by
      rw [List.length_take]; omega
    rw [h0, List.drop_eq_nil_of_le hlen, List.take_zero]

lemma weekdayIdx_lt_length (df : List (List String)) (day : String) (ix : Nat)
    (h : weekdayIdx df day = some ix) : ix < df.length :=
  ((List.findIdx?_eq_some_iff_findIdx_eq).mp h).1

lemma assocFind_eq_none_of_all {β : Type} (k : String) :
    ∀ l : List (String × β), (∀ p ∈ l, p.1 ≠ k) → assocFind l k = none := by
  intro l
  induction l with
  | nil => intro _; rfl
  | cons p rest ih =>
      obtain ⟨a, b⟩ := p
      intro h
      rw [assocFind, if_neg (h (a, b) (by simp))]
      exact ih (fun q hq => h q (by simp [hq]))

end Ukenytt

/-- C3 counterexample: in a table missing Onsdag, the code gives Tirsdag
the slice up to the *last row of the table* (its content list contains the
cells "e", "f", "g", "h" of rows 5–8, at and beyond Torsdag's row 5),
whereas the claim says the slice stops at the next *present* weekday's row
minus two (rows 2–3, i.e. ["b", "c"]).  The absent Onsdag indeed produces
no entry. -/
theorem C3_counterexample :
    Ukenytt.weekdayIdx Ukenytt.c3Df "Onsdag" = none ∧
    Ukenytt.weekdayIdx Ukenytt.c3Df "Tirsdag" = some 3 ∧
    Ukenytt.weekdayIdx Ukenytt.c3Df "Torsdag" = some 5 ∧
    Ukenytt.parse_pdf Ukenytt.c3Df
      = some [("Mandag", ["hdr", "a"]),
              ("Tirsdag", ["b", "c", "d", "e", "f", "g", "h"]),
              ("Torsdag", ["d", "e"]),
              ("Fredag", ["f", "g", "h"])] :=
  ⟨by decide, by decide, by decide, by decide⟩

/-- C3 amended: each weekday present in column 0 takes as its task list
the content-column (index 2) cells of the rows from its row index minus
one up to the *immediately following* weekday's row index minus two when
that weekday (the next in Mon–Fri order) is present, and up to the last
row of the table otherwise (in particular for Friday, or when the
immediately following weekday is absent); blank or whitespace-only cells
are dropped; an absent weekday produces no entry; a present weekday with
a nonempty filtered slice produces exactly that entry. -/
theorem C3_amended_weekday_segmentation :
    (∀ (df : List (List String)) (i : Nat) (day : String) (ix : Nat)
       (nd : String) (nIx : Nat),
       Ukenytt.WEEKDAYS.get? i = some day →
       Ukenytt.weekdayIdx df day = some ix → 1 ≤ ix →
       Ukenytt.WEEKDAYS.get? (i + 1) = some nd →
       Ukenytt.weekdayIdx df nd = some nIx → 2 ≤ nIx →
       Ukenytt.daySlice df i ix
         = (((df.drop (ix - 1)).take (nIx - ix)).map
             (fun row => Ukenytt.cell row 2)).filter
               (fun s => !(s == "") && !(pyStrip s == ""))) ∧
    (∀ (df : List (List String)) (i : Nat) (day : String) (ix : Nat),
       Ukenytt.WEEKDAYS.get? i = some day →
       Ukenytt.weekdayIdx df day = some ix → 1 ≤ ix →
       (Ukenytt.WEEKDAYS.get? (i + 1)).bind (Ukenytt.weekdayIdx df) = none →
       Ukenytt.daySlice df i ix
         = ((df.drop (ix - 1)).map (fun row => Ukenytt.cell row 2)).filter
             (fun s => !(s == "") && !(pyStrip s == ""))) ∧
    (∀ (df : List (List String)) (day : String)
       (out : List (String × List String)),
       Ukenytt.parse_pdf df = some out →
       Ukenytt.weekdayIdx df day = none →
       assocFind out day = none) ∧
    (∀ (df : List (List String)) (i : Nat) (day : String) (ix : Nat),
       df ≠ [] →
       Ukenytt.WEEKDAYS.get? i = some day →
       Ukenytt.weekdayIdx df day = some ix →
       Ukenytt.daySlice df i ix ≠ [] →
       ∃ out, Ukenytt.parse_pdf df = some out ∧
         (day, Ukenytt.daySlice df i ix) ∈ out) := by
  refine ⟨?_, ?_, ?_, ?_⟩
  · intro df i day ix nd nIx _hday hix h1 hnext hnIx h2
    have hixlt := Ukenytt.weekdayIdx_lt_length df day ix hix
    have hnlt := Ukenytt.weekdayIdx_lt_length df nd nIx hnIx
    unfold Ukenytt.daySlice
    simp only [hnext, hnIx]
    have e1 : ((ix : Int) - 1) = ((ix - 1 : Nat) : Int) := by omega
    have e2 : (((nIx : Int) - 2) + 1) = ((nIx - 1 : Nat) : Int) := by omega
    rw [e1, e2, Ukenytt.pySlice_eq_drop_take df (ix - 1) (nIx - 1)
      (by omega) (by omega)]
    have e3 : (nIx - 1) - (ix - 1) = nIx - ix := by omega
    rw [e3]
  · intro df i day ix _hday hix h1 hnone
    have hixlt := Ukenytt.weekdayIdx_lt_length df day ix hix
    have e1 : ((ix : Int) - 1) = ((ix - 1 : Nat) : Int) := by omega
    have e2 : (((df.length : Int) - 1) + 1) = ((df.length : Nat) : Int) := by omega
    have hfin : ((df.drop (ix - 1)).take (df.length - (ix - 1)))
        = df.drop (ix - 1) := by
      apply List.take_of_length_le
      rw [List.length_drop]
    unfold Ukenytt.daySlice
    cases hg : Ukenytt.WEEKDAYS.get? (i + 1) with
    | none =>
        simp only [hg]
        rw [e1, e2, Ukenytt.pySlice_eq_drop_take df (ix - 1) df.length
          (by omega) (le_refl _), hfin]
    | some nd =>
        have hnd : Ukenytt.weekdayIdx df nd = none := by
          rw [hg] at hnone; simpa using hnone
        simp only [hg, hnd]
        rw [e1, e2, Ukenytt.pySlice_eq_drop_take df (ix - 1) df.length
          (by omega) (le_refl _), hfin]
  · intro df day out hp hnone
    unfold Ukenytt.parse_pdf at hp
    by_cases hdf : df = []
    · rw [if_pos hdf] at hp; exact absurd hp (by simp)
    · rw [if_neg hdf] at hp
      have hout := Option.some.inj hp
      subst hout
      apply Ukenytt.assocFind_eq_none_of_all
      intro p hp2
      rcases List.mem_filterMap.mp hp2 with ⟨q, _hq, hfn⟩
      cases hwk : Ukenytt.weekdayIdx df q.2 with
      | none => rw [hwk] at hfn; exact absurd hfn (by simp)
      | some jx =>
          rw [hwk] at hfn
          simp only [] at hfn
          by_cases hsl : Ukenytt.daySlice df q.1 jx = []
          · rw [if_pos hsl] at hfn; exact absurd hfn (by simp)
          · rw [if_neg hsl] at hfn
            have hp1 : p.1 = q.2 := by
              have := Option.some.inj hfn
              rw [← this]
            intro hk
            rw [hp1] at hk
            rw [hk] at hwk
            rw [hwk] at hnone
            exact absurd hnone (by simp)
  · intro df i day ix hdf hday hix hne
    refine ⟨_, by unfold Ukenytt.parse_pdf; rw [if_neg hdf], ?_⟩
    apply List.mem_filterMap.mpr
    refine ⟨(i, day), ?_, ?_⟩
    · apply List.mk_mem_enum_iff_getElem?.mpr
      rw [← List.get?_eq_getElem?]
      exact hday
    · simp only [hix, if_neg hne]

/-- Witness for C3's amended theorem on the all-five-weekday table and the
Onsdag-free table. -/
theorem C3_amended_weekday_segmentation_witness :
    Ukenytt.daySlice Ukenytt.c3DfFull 0 1
      = ((((Ukenytt.c3DfFull.drop 0).take 2)).map
          (fun row => Ukenytt.cell row 2)).filter
            (fun s => !(s == "") && !(pyStrip s == "")) ∧
    Ukenytt.daySlice Ukenytt.c3DfFull 4 9
      = ((Ukenytt.c3DfFull.drop 8).map (fun row => Ukenytt.cell row 2)).filter
          (fun s => !(s == "") && !(pyStrip s == "")) ∧
    assocFind [("Mandag", ["hdr", "a"]),
               ("Tirsdag", ["b", "c", "d", "e", "f", "g", "h"]),
               ("Torsdag", ["d", "e"]),
               ("Fredag", ["f", "g", "h"])] "Onsdag" = none ∧
    (∃ out, Ukenytt.parse_pdf Ukenytt.c3DfFull = some out ∧
      ("Mandag", Ukenytt.daySlice Ukenytt.c3DfFull 0 1) ∈ out) :=
  ⟨C3_amended_weekday_segmentation.1 Ukenytt.c3DfFull 0 "Mandag" 1 "Tirsdag" 3
     (by decide) (by decide) (by decide) (by decide) (by decide) (by decide),
   C3_amended_weekday_segmentation.2.1 Ukenytt.c3DfFull 4 "Fredag" 9
     (by decide) (by decide) (by decide) (by decide),
   C3_amended_weekday_segmentation.2.2.1 Ukenytt.c3Df "Onsdag" _
     (by decide) (by decide),
   C3_amended_weekday_segmentation.2.2.2 Ukenytt.c3DfFull 0 "Mandag" 1
     (by decide) (by decide) (by decide) (by decide)⟩

namespace BobilWeb

lemma roundHalfEven_intCast (n : Int) : roundHalfEven ((n : Int) : ℚ) = n := by
  unfold roundHalfEven
  rw [Int.floor_intCast, sub_self]
  norm_num

lemma mem_insertDesc (e x : ScoreEntry) :
    ∀ l, x ∈ insertDesc e l ↔ x = e ∨ x ∈ l := by
  intro l
  induction l with
  | nil => simp [insertDesc]
  | cons a t ih =>
      unfold insertDesc
      by_cases hc : a.KjopsScore < e.KjopsScore
      · rw [if_pos hc]
        simp [List.mem_cons]
      · rw [if_neg hc]
        simp only [List.mem_cons, ih]
        tauto

lemma mem_sortByScoreDesc (x : ScoreEntry) :
    ∀ l, x ∈ sortByScoreDesc l ↔ x ∈ l := by
  intro l
  induction l with
  | nil => simp [sortByScoreDesc]
  | cons a t ih =>
      have hstep : sortByScoreDesc (a :: t) = insertDesc a (sortByScoreDesc t) := rfl
      rw [hstep, mem_insertDesc, ih, List.mem_cons]

lemma processRow_days_le (now : Date) (tbl : List WebPrisRow) (b : WebRow)
    (e : ScoreEntry) (h : processRow now tbl b = some e) :
    e.DagerPaaMarkedet ≤ 60 := by
  unfold processRow at h
  cases hp : parse_price b.Pris with
  | none => rw [hp] at h; exact absurd h (by simp)
  | some p =>
      rw [hp] at h
      simp only [] at h
      by_cases h0 : p = 0
      · rw [if_pos h0] at h; exact absurd h (by simp)
      · rw [if_neg h0] at h
        cases hd : parse_norwegian_date b.Oppdatert with
        | none => rw [hd] at h; exact absurd h (by simp)
        | some dt =>
            rw [hd] at h
            simp only [] at h
            by_cases h60 : 60 < daysBetween now dt
            · rw [if_pos h60] at h; exact absurd h (by simp)
            · rw [if_neg h60] at h
              have he := Option.some.inj h
              have h2 : e.DagerPaaMarkedet = daysBetween now dt := by
                rw [← he]
              rw [h2]
              omega

end BobilWeb

/-- C5: a listing that passes the buy-score filters (parseable nonzero
price, parseable date, at most 60 days on market) and has no recorded
price-change rows gets the current price as the high/low fallback, a zero
percentage drop, and a buy score equal to exactly its days on market;
listings whose date is more than 60 days old are excluded from the view's
result entirely (every result entry comes from a not-sold row within the
cutoff). -/
theorem C5_buy_score_zero_history :
    (∀ (now : BobilWeb.Date) (tbl : List BobilWeb.WebPrisRow)
       (b : BobilWeb.WebRow) (p : Nat) (dt : BobilWeb.Date),
       BobilWeb.parse_price b.Pris = some p → p ≠ 0 →
       BobilWeb.parse_norwegian_date b.Oppdatert = some dt →
       BobilWeb.daysBetween now dt ≤ 60 →
       tbl.filter (fun q => q.Finnkode == b.Finnkode) = [] →
       ∃ e, BobilWeb.processRow now tbl b = some e ∧
         e.HoyestePris = BobilWeb.format_price (some p) ∧
         e.LavestePris = BobilWeb.format_price (some p) ∧
         e.AntallEndringer = 0 ∧
         e.DagerPaaMarkedet = BobilWeb.daysBetween now dt ∧
         e.KjopsScore = BobilWeb.daysBetween now dt) ∧
    (∀ (now : BobilWeb.Date) (tbl : List BobilWeb.WebPrisRow)
       (b : BobilWeb.WebRow) (dt : BobilWeb.Date),
       BobilWeb.parse_norwegian_date b.Oppdatert = some dt →
       60 < BobilWeb.daysBetween now dt →
       BobilWeb.processRow now tbl b = none) ∧
    (∀ (now : BobilWeb.Date) (bobil : List BobilWeb.WebRow)
       (pris : List BobilWeb.WebPrisRow) (e : BobilWeb.ScoreEntry),
       e ∈ BobilWeb.get_kjopsscore now bobil pris →
       ∃ b, b ∈ bobil ∧ BobilWeb.solgtOk b ∧
         BobilWeb.processRow now pris b = some e ∧
         e.DagerPaaMarkedet ≤ 60) := by
  refine ⟨?_, ?_, ?_⟩
  · intro now tbl b p dt hp h0 hd h60 hflt
    have haggr : BobilWeb.aggregate tbl b
        = { base := b, AntallEndringer := 0
            LavestePris := none, HoyestePris := none } := by
      unfold BobilWeb.aggregate
      rw [hflt]
      rfl
    unfold BobilWeb.processRow
    simp only [haggr, hp, hd]
    rw [if_neg h0, if_neg (not_lt.mpr h60)]
    refine ⟨_, rfl, rfl, rfl, rfl, rfl, ?_⟩
    simp only []
    rw [if_neg (by simp)]
    have harg : (0 : ℚ) * ((BobilWeb.daysBetween now dt : ℚ) + 1)
        + ((0 : Nat) : ℚ) * 5 + (BobilWeb.daysBetween now dt : ℚ)
        = ((BobilWeb.daysBetween now dt : Int) : ℚ) := by
      push_cast
      ring
    rw [harg, BobilWeb.roundHalfEven_intCast]
  · intro now tbl b dt hd h60
    unfold BobilWeb.processRow
    cases hp : BobilWeb.parse_price b.Pris with
    | none => rfl
    | some p =>
        simp only []
        by_cases h0 : p = 0
        · rw [if_pos h0]
        · rw [if_neg h0, hd]
          simp only []
          rw [if_pos h60]
  · intro now bobil pris e he
    have h1 : e ∈ BobilWeb.sortByScoreDesc
        ((bobil.filter BobilWeb.solgtOk).filterMap (BobilWeb.processRow now pris)) :=
      List.take_subset 100 _ he
    rw [BobilWeb.mem_sortByScoreDesc] at h1
    rcases List.mem_filterMap.mp h1 with ⟨b, hb, hpb⟩
    rcases List.mem_filter.mp hb with ⟨hb1, hb2⟩
    exact ⟨b, hb1, hb2, hpb, BobilWeb.processRow_days_le now pris b e hpb⟩

/-- Witness for C5 at a concrete listing: price "450 000 kr", updated
"25. jan. 2025 14:30", viewed 16 days later (15 whole days on market), no
price history; and exclusion at a view time more than 60 days later. -/
theorem C5_buy_score_zero_history_witness :
    (∃ e, BobilWeb.processRow BobilWeb.c5Now [] BobilWeb.c5Row = some e ∧
      e.HoyestePris = BobilWeb.format_price (some 450000) ∧
      e.LavestePris = BobilWeb.format_price (some 450000) ∧
      e.AntallEndringer = 0 ∧
      e.DagerPaaMarkedet = BobilWeb.daysBetween BobilWeb.c5Now BobilWeb.c5Dt ∧
      e.KjopsScore = BobilWeb.daysBetween BobilWeb.c5Now BobilWeb.c5Dt) ∧
    BobilWeb.processRow BobilWeb.c5Later [] BobilWeb.c5Row = none :=
  ⟨C5_buy_score_zero_history.1 BobilWeb.c5Now [] BobilWeb.c5Row 450000
     BobilWeb.c5Dt (by decide) (by decide) (by decide) (by decide) (by decide),
   C5_buy_score_zero_history.2.1 BobilWeb.c5Later [] BobilWeb.c5Row
     BobilWeb.c5Dt (by decide) (by decide)⟩
